import Mathlib

/-!
Shallow embedding of the geographic placement engine of the repository:
the dispersed-city selector (`city_selector.py`) and the constrained
random-point sampler (`sentinel_query.py`).  Python floats are modelled
as real numbers; the randomness of the sampler (its uniform bearing
draws) is externalized as an explicit stream of bearing values; the
external land-polygon library calls (`shapely`/`geopandas`) are
externalized as oracle parameters that may fail (`Option`), matching
the `try`/`except` structure of the source.
-/

open Real

/-- Degrees to radians, `math.radians` / `np.radians` from the source. -/
noncomputable def radOf (x : ℝ) : ℝ := x * π / 180

/-- Radians to degrees, `math.degrees` from the source. -/
noncomputable def degOf (x : ℝ) : ℝ := x * 180 / π

/-- The two-argument arctangent `math.atan2 y x`, modelled as the argument of
the complex number `x + y i`, which has exactly the C `atan2` semantics on
real (non-signed-zero) inputs: range `(-π, π]`, `atan2 0 0 = 0`. -/
noncomputable def atan2 (y x : ℝ) : ℝ := Complex.arg (x + y * Complex.I)

/-- The haversine distance of `city_selector.post_process_city_selection`
(nested helper `haversine_distance`): degrees in, kilometres out, Earth
radius 6371 km, central angle computed as `2 * atan2 (sqrt a) (sqrt (1-a))`. -/
noncomputable def haversineDistance (lat1 lon1 lat2 lon2 : ℝ) : ℝ :=
  let dlat := radOf lat2 - radOf lat1
  let dlon := radOf lon2 - radOf lon1
  let a := Real.sin (dlat / 2) ^ 2 +
    Real.cos (radOf lat1) * Real.cos (radOf lat2) * Real.sin (dlon / 2) ^ 2
  let c := 2 * atan2 (Real.sqrt a) (Real.sqrt (1 - a))
  6371 * c

/-- The haversine distance on the unit sphere used by the greedy loop of
`select_dispersed_cities` (`sklearn.metrics.pairwise.haversine_distances`):
inputs are `(lat, lon)` pairs already in radians, the central angle is
computed as `2 * arcsin (sqrt a)`. -/
noncomputable def havRad (u v : ℝ × ℝ) : ℝ :=
  2 * Real.arcsin (Real.sqrt (Real.sin ((v.1 - u.1) / 2) ^ 2 +
    Real.cos u.1 * Real.cos v.1 * Real.sin ((v.2 - u.2) / 2) ^ 2))

/-- A row of the city DataFrame: the columns actually read by the
selection algorithm (`lat`, `lng`, `population`).  The `city` name column
is only used for log messages in the source and is omitted. -/
structure City where
  lat : ℝ
  lng : ℝ
  population : ℝ

instance : Inhabited City := ⟨⟨0, 0, 0⟩⟩

/-- A DataFrame row together with its index label. -/
abbrev LCity := ℕ × City

/-- The mutable state of the `post_process_city_selection` loop:
`improved_cities` (rows with their index labels, in frame order) and the
`selected_indices` label set. -/
structure PPState where
  improved : List LCity
  selIdx : List ℕ

/-- The accumulator step of `np.argmax`: scan keeping the first index of
the maximum (a later value replaces the current best only if strictly
greater). -/
noncomputable def argmaxAux : List ℝ → ℕ → ℕ → ℝ → ℕ
  | [], _, bi, _ => bi
  | v :: rest, i, bi, bv =>
    if bv < v then argmaxAux rest (i + 1) i v else argmaxAux rest (i + 1) bi bv

/-- Index of the first maximal element, `np.argmax` (0 on the empty array,
which the source never hits). -/
noncomputable def argmaxIdx : List ℝ → ℕ
  | [] => 0
  | v :: rest => argmaxAux rest 1 0 v

/-- Minimum of a list, `np.min` (0 on the empty array, which the source
never hits because the selected set is never empty). -/
noncomputable def npMin : List ℝ → ℝ
  | [] => 0
  | x :: xs => xs.foldl min x

/-- One sweep of the greedy loop body of `select_dispersed_cities`
(lines 196-210): for every index `j` of the coordinate array, `-1` if `j`
is already selected, otherwise the minimum distance in km from
`coords_rad[j]` to the selected coordinates. -/
noncomputable def minDistances (coordsRad : List (ℝ × ℝ)) (selected : List ℕ) : List ℝ :=
  (List.range coordsRad.length).map fun j =>
    if j ∈ selected then -1
    else npMin (selected.map fun i =>
      6371 * havRad (coordsRad.getD j (0, 0)) (coordsRad.getD i (0, 0)))

/-- The greedy expansion loop (`for i in range(1, n_cities)`): appends the
argmax index of `min_distances` to the selection, `k` times. -/
noncomputable def greedyLoop (coordsRad : List (ℝ × ℝ)) : ℕ → List ℕ → List ℕ
  | 0, sel => sel
  | k + 1, sel => greedyLoop coordsRad k (sel ++ [argmaxIdx (minDistances coordsRad sel)])

/-- The selected positional indices of `select_dispersed_cities`: starts
from `[0]` and runs `n' - 1` greedy steps. -/
noncomputable def greedyIndices (coordsRad : List (ℝ × ℝ)) (n : ℕ) : List ℕ :=
  greedyLoop coordsRad (n - 1) [0]

/-- Stable insertion for descending sort by population (the embedding of
`DataFrame.sort_values('population', ascending=False)`; the population
keys of every concrete scenario are distinct, so any correct sort agrees
with this one). -/
noncomputable def insertDesc (c : LCity) : List LCity → List LCity
  | [] => [c]
  | x :: xs =>
    if x.2.population < c.2.population then c :: x :: xs else x :: insertDesc c xs

/-- Sort rows by population, descending, keeping index labels. -/
noncomputable def sortPopDesc (l : List LCity) : List LCity :=
  l.foldr insertDesc []

/-- Great-circle distance between two city rows as used in the repair
pass. -/
noncomputable def dCity (a b : City) : ℝ :=
  haversineDistance a.lat a.lng b.lat b.lng

/-- The ordered list of row pairs visited by the nested
`for i, city1 ... for j, city2 ... if i >= j: continue` scan of the
repair pass: all pairs with first label smaller than second, in frame
iteration order. -/
def pairsList (improved : List LCity) : List (LCity × LCity) :=
  improved.flatMap fun r1 =>
    ((improved.filter fun r2 => r1.1 < r2.1).map fun r2 => (r1, r2))

/-- One step of the closest-pair scan: keep the first pair attaining the
minimum (strict `<` update, starting from the infinite sentinel =
`none`). -/
noncomputable def scanStep (acc : Option (ℝ × ℕ × ℕ)) (pr : LCity × LCity) :
    Option (ℝ × ℕ × ℕ) :=
  match acc with
  | none => some (dCity pr.1.2 pr.2.2, pr.1.1, pr.2.1)
  | some (m, _, _) =>
    if dCity pr.1.2 pr.2.2 < m then some (dCity pr.1.2 pr.2.2, pr.1.1, pr.2.1) else acc

/-- The closest-pair scan of the repair pass (lines 82-98): returns the
first pair attaining the minimum distance, together with that distance;
`none` models `closest_pair is None` (no pair visited, `min_dist` still
infinite). -/
noncomputable def scanMinPair (improved : List LCity) : Option (ℝ × ℕ × ℕ) :=
  (pairsList improved).foldl scanStep none

/-- The minimum pairwise distance over the current selection (the value
component of the closest-pair scan); `none` when fewer than two rows. -/
noncomputable def minPairwiseDist (improved : List LCity) : Option ℝ :=
  (scanMinPair improved).map (·.1)

/-- Comparison `a > b` on `ℝ` extended with `none = +∞` (Python's
`float('inf')`). -/
noncomputable def oGT (a b : Option ℝ) : Bool :=
  match a, b with
  | none, none => false
  | none, some _ => true
  | some _, none => false
  | some x, some y => decide (y < x)

/-- Order `a ≤ b` on `Option ℝ` with `none = +∞`, for stating
monotonicity of the repair loop. -/
def oLE (a b : Option ℝ) : Prop :=
  match a, b with
  | _, none => True
  | none, some _ => False
  | some x, some y => x ≤ y

/-- One step of the running-minimum fold (`min_distance = min(...)`
seeded with `float('inf')` = `none`). -/
noncomputable def minFoldStep (acc : Option ℝ) (d : ℝ) : Option ℝ :=
  match acc with
  | none => some d
  | some m => some (min m d)

/-- Minimum distance from a candidate to every selected row except the
one being replaced (lines 123-133); `none` models the untouched
`float('inf')` when no other row exists. -/
noncomputable def minDistExcluding (improved : List LCity) (replaceIdx : ℕ) (cand : City) :
    Option ℝ :=
  ((improved.filter fun r => r.1 ≠ replaceIdx).map fun r => dCity cand r.2).foldl
    minFoldStep none

/-- One step of the replacement search: skip selected labels, otherwise
keep the candidate whose minimum distance to the remaining selection is
strictly the largest so far. -/
noncomputable def bestStep (selIdx : List ℕ) (improved : List LCity) (replaceIdx : ℕ)
    (acc : Option (ℕ × City) × Option ℝ) (r : LCity) : Option (ℕ × City) × Option ℝ :=
  if r.1 ∈ selIdx then acc
  else
    if oGT (minDistExcluding improved replaceIdx r.2) acc.2 then
      (some (r.1, r.2), minDistExcluding improved replaceIdx r.2)
    else acc

/-- The replacement search of the repair pass (lines 115-139): scan the
pool in frame order, skip rows whose label is in `selected_indices`,
keep the candidate whose minimum distance to the remaining selection is
largest (strictly; `max_min_distance` starts at `0`). -/
noncomputable def bestReplacementScan (allCities : List LCity) (selIdx : List ℕ)
    (improved : List LCity) (replaceIdx : ℕ) : Option (ℕ × City) × Option ℝ :=
  allCities.foldl (bestStep selIdx improved replaceIdx) (none, some 0)

/-- Row lookup by index label (`DataFrame.loc`). -/
noncomputable def rowAt (improved : List LCity) (l : ℕ) : City :=
  ((improved.find? fun r => r.1 == l).getD (l, default)).2

/-- In-place row replacement at a label (`improved_cities.loc[replace_idx]
= best_replacement`): the label stays, the data changes. -/
def swapRow (improved : List LCity) (replaceIdx : ℕ) (bCity : City) : List LCity :=
  improved.map fun r => if r.1 = replaceIdx then (replaceIdx, bCity) else r

/-- The eviction choice of the repair pass (line 108): the lower-weight
member of the closest pair is replaced. -/
noncomputable def replaceChoice (s : PPState) (i j : ℕ) : ℕ :=
  if (rowAt s.improved i).population < (rowAt s.improved j).population then i else j

/-- One iteration of the `while improvements_made` loop of
`post_process_city_selection`: `some s2` when a replacement swap is
accepted, `none` when the loop stops (constraint already satisfied, no
pair, or no strictly improving replacement). -/
noncomputable def postProcessIter (allCities : List LCity) (minDistanceKm : ℝ)
    (s : PPState) : Option PPState :=
  match scanMinPair s.improved with
  | none => none
  | some (m, i, j) =>
    if m < minDistanceKm then
      match bestReplacementScan allCities s.selIdx s.improved (replaceChoice s i j) with
      | (some (bIdx, bCity), maxMin) =>
        if oGT maxMin (some m) then
          some ⟨swapRow s.improved (replaceChoice s i j) bCity,
            bIdx :: s.selIdx.filter fun x => x ≠ replaceChoice s i j⟩
        else none
      | (none, _) => none
    else none

/-- The repair loop driven by explicit fuel; the source's `while` loop has
no fuel, and the termination theorem for claim C5 shows that some finite
fuel always reaches the loop's own stopping condition. -/
noncomputable def postProcessLoop (allCities : List LCity) (minDistanceKm : ℝ) :
    ℕ → PPState → PPState
  | 0, s => s
  | fuel + 1, s =>
    match postProcessIter allCities minDistanceKm s with
    | none => s
    | some s2 => postProcessLoop allCities minDistanceKm fuel s2

/-- Embedding of `post_process_city_selection` (modulo fuel): the initial
`selected_indices` set is the label set of the selected rows. -/
noncomputable def postProcessCitySelection (fuel : ℕ)
    (selectedCities allCities : List LCity) (minDistanceKm : ℝ) : List LCity :=
  (postProcessLoop allCities minDistanceKm fuel
    ⟨selectedCities, selectedCities.map Prod.fst⟩).improved

/-- Embedding of `select_dispersed_cities`.  Faithful to the source,
including its quirks: `coords_rad` is computed from the pool BEFORE the
population sort (line 185 precedes line 188), the seed is always
selected even when `n_cities = 0`, and the post-processing call passes
the selected rows re-labelled `0..k-1` (`reset_index(drop=True)`) while
`all_cities` keeps the original labels.  The claims only concern pools
whose coordinates are all valid, so the `dropna` filter is the
identity. -/
noncomputable def selectDispersedCities (citiesDf : List City) (nCities : ℕ)
    (minDistanceKm : ℝ) (applyPostProcessing : Bool) (fuel : ℕ) : List City :=
  let validCities := citiesDf
  let n2 := min nCities validCities.length
  let coordsRad := validCities.map fun c => (radOf c.lat, radOf c.lng)
  let sortedCities := sortPopDesc validCities.enum
  let selIdx := greedyIndices coordsRad n2
  let selectedCities := selIdx.map fun i => (sortedCities.getD i (0, default)).2
  if applyPostProcessing then
    (postProcessCitySelection fuel selectedCities.enum sortedCities minDistanceKm).map
      Prod.snd
  else selectedCities

/-- The deterministic core of `_generate_random_point_at_distance`
(`sentinel_query.py`), with the uniformly drawn bearing (degrees)
passed in explicitly: spherical forward projection from `(lat, lon)`
at `distance_km`.  The source returns the longitude without any
normalization step. -/
noncomputable def generatePointAtDistance (bearing lat lon distanceKm : ℝ) : ℝ × ℝ :=
  let distanceRad := distanceKm / 6371
  let latRad := radOf lat
  let lonRad := radOf lon
  let bearingRad := radOf bearing
  let newLatRad := Real.arcsin (Real.sin latRad * Real.cos distanceRad +
    Real.cos latRad * Real.sin distanceRad * Real.cos bearingRad)
  let newLonRad := lonRad + atan2
    (Real.sin bearingRad * Real.sin distanceRad * Real.cos latRad)
    (Real.cos distanceRad - Real.sin latRad * Real.sin newLatRad)
  (degOf newLatRad, degOf newLonRad)

/-- The `ensure_on_land` retry loop of `get_random_point_at_distance`:
`attempt` is the current attempt number (indexing the bearing stream),
the second argument the number of attempts remaining. -/
noncomputable def landAttempts (bearings : ℕ → ℝ) (oracle : ℝ → ℝ → Bool)
    (lat lon distanceKm : ℝ) : ℕ → ℕ → Option (ℝ × ℝ × Bool)
  | _, 0 => none
  | attempt, remaining + 1 =>
    let p := generatePointAtDistance (bearings attempt) lat lon distanceKm
    if oracle p.1 p.2 then some (p.1, p.2, true)
    else landAttempts bearings oracle lat lon distanceKm (attempt + 1) remaining

/-- Embedding of `get_random_point_at_distance`: the bearing draws are
the stream `bearings`, the land test `is_point_on_land` is the `oracle`
parameter.  Total by construction: the source never raises on this
path. -/
noncomputable def getRandomPointAtDistance (bearings : ℕ → ℝ) (oracle : ℝ → ℝ → Bool)
    (lat lon distanceKm : ℝ) (ensureOnLand : Bool) (maxAttempts : ℕ) :
    Option (ℝ × ℝ × Bool) :=
  if ensureOnLand = false then
    let p := generatePointAtDistance (bearings 0) lat lon distanceKm
    some (p.1, p.2, oracle p.1 p.2)
  else landAttempts bearings oracle lat lon distanceKm 0 maxAttempts

/-- The containment loop of `is_point_on_land` (lines 450-458): each
entry is the outcome of one `point.within(row.geometry)` call, `none`
when that call raised (the bare `except` swallows it and moves on);
`some true` returns `True` immediately, anything else falls through to
`False`. -/
def landPolygonLoop : List (Option Bool) → Bool
  | [] => false
  | some true :: _ => true
  | some false :: rest => landPolygonLoop rest
  | none :: rest => landPolygonLoop rest

/-- A named fallback region of `_create_simplified_land_polygons`: its
vertex list in `(lon, lat)` order, exactly as in the source. -/
structure FallbackRegion where
  rname : String
  vertices : List (ℝ × ℝ)

/-- The fixed fallback polygon set of `_create_simplified_land_polygons`,
verbatim from the source. -/
def createSimplifiedLandPolygons : List FallbackRegion :=
  [⟨"North America", [(-175, 85), (-45, 85), (-45, 0), (-175, 0)]⟩,
   ⟨"South America", [(-95, 20), (-25, 20), (-25, -65), (-95, -65)]⟩,
   ⟨"Europe", [(-15, 75), (50, 75), (50, 30), (-15, 30)]⟩,
   ⟨"Africa", [(-25, 45), (60, 45), (60, -45), (-25, -45)]⟩,
   ⟨"Asia", [(35, 85), (185, 85), (185, -5), (35, -5)]⟩,
   ⟨"Australia", [(105, -5), (160, -5), (160, -50), (105, -50)]⟩,
   ⟨"Antarctica", [(-185, -55), (185, -55), (185, -95), (-185, -95)]⟩,
   ⟨"Caribbean", [(-90, 30), (-55, 30), (-55, 10), (-90, 10)]⟩,
   ⟨"Southeast Asia", [(90, 25), (130, 25), (130, -10), (90, -10)]⟩,
   ⟨"Pacific Islands", [(130, 30), (180, 30), (180, -30), (130, -30)]⟩]

/-- Model of the external `shapely` strict containment test
`Point(x, y).within(polygon)` for the axis-aligned rectangles of the
fallback set: membership in the open bounding box of the vertex list
(`within` tests interior membership, so the boundary is excluded). -/
noncomputable def rectWithin (vertices : List (ℝ × ℝ)) (x y : ℝ) : Bool :=
  match (vertices.map Prod.fst).min?, (vertices.map Prod.fst).max?,
      (vertices.map Prod.snd).min?, (vertices.map Prod.snd).max? with
  | some xmin, some xmax, some ymin, some ymax =>
    decide (xmin < x) && decide (x < xmax) && decide (ymin < y) && decide (y < ymax)
  | _, _, _, _ => false

/-- Embedding of `is_point_on_land`: `loaded` is the lazily acquired
authoritative polygon set (`none` when the Natural Earth file is
unavailable, in which case the source substitutes the fallback set);
`within` is the external containment test on authoritative polygons,
which may raise (`none`). -/
noncomputable def isPointOnLand {α : Type} (loaded : Option (List α))
    (within : α → Option Bool) (lat lon : ℝ) : Bool :=
  match loaded with
  | some polys => landPolygonLoop (polys.map within)
  | none =>
    landPolygonLoop (createSimplifiedLandPolygons.map fun r =>
      some (rectWithin r.vertices lon lat))

/-- Concrete pools and states used by the counterexamples and the
concrete-scenario claims. -/
def c1Pool : List City := [⟨0, 0, 50⟩, ⟨0, 10, 100⟩, ⟨0, 30, 60⟩]

def c2Pool : List City :=
  [⟨0, 0, 100⟩, ⟨0, 10, 90⟩, ⟨0, 20, 80⟩, ⟨0, 30, 70⟩, ⟨0, 40, 60⟩]

def c5A : City := ⟨0, 0, 10⟩

def c5B : City := ⟨0, 1, 20⟩

def c5C : City := ⟨0, 50, 30⟩

def c5D : City := ⟨0, 51, 40⟩

def c5E : City := ⟨0, 120, 5⟩

def c5Pool : List LCity := [(0, c5A), (1, c5B), (2, c5C), (3, c5D), (4, c5E)]

def c5State : PPState := ⟨[(0, c5A), (1, c5B), (2, c5C), (3, c5D)], [0, 1, 2, 3]⟩

def c5StateAfter : PPState := ⟨[(0, c5E), (1, c5B), (2, c5C), (3, c5D)], [4, 1, 2, 3]⟩

/-- All pairwise distances realizable between pool rows, as a finite
set: the potential function of the termination proof lives over it. -/
noncomputable def poolDists (allCities : List LCity) : Finset ℝ :=
  ((allCities.map Prod.snd).flatMap fun a =>
    (allCities.map Prod.snd).map fun b => dCity a b).toFinset

/-- Termination potential of the repair loop: the number of realizable
pool distances at least the current closest-pair distance, weighted by
the pair count, plus the number of pairs attaining that distance.  Every
accepted swap strictly decreases it. -/
noncomputable def muRepair (allCities : List LCity) (s : PPState) : ℕ :=
  match scanMinPair s.improved with
  | none => 0
  | some (m, _, _) =>
    ((poolDists allCities).filter fun z => m ≤ z).card *
      ((pairsList s.improved).length + 1) +
      ((pairsList s.improved).countP fun pr => decide (dCity pr.1.2 pr.2.2 = m))

/-! Helper lemmas about the sampler and the land test. -/

/-- If the oracle rejects every point generated during the remaining
attempts, the retry loop returns `none`. -/
theorem landAttempts_all_false (bearings : ℕ → ℝ) (oracle : ℝ → ℝ → Bool)
    (lat lon distanceKm : ℝ) (k n : ℕ)
    (h : ∀ t, k ≤ t → t < k + n →
      oracle (generatePointAtDistance (bearings t) lat lon distanceKm).1
        (generatePointAtDistance (bearings t) lat lon distanceKm).2 = false) :
    landAttempts bearings oracle lat lon distanceKm k n = none := by
  induction n generalizing k with
  | zero => simp [landAttempts]
  | succ n ih =>
    have h0 := h k (le_refl k) (by omega)
    simp [landAttempts, h0]
    exact ih (k + 1) fun t ht1 ht2 => h t (by omega) (by omega)

/-- Prepending a successful-or-failed test to the containment loop. -/
theorem landPolygonLoop_cons_some (b : Bool) (rest : List (Option Bool)) :
    landPolygonLoop (some b :: rest) = (b || landPolygonLoop rest) := by
  cases b <;> simp [landPolygonLoop]

/-- A raised containment test behaves exactly like a `false` verdict. -/
theorem landPolygonLoop_cons_none (rest : List (Option Bool)) :
    landPolygonLoop (none :: rest) = landPolygonLoop rest := rfl

/-- The containment loop with exception-free tests is `List.any`. -/
theorem landPolygonLoop_map_some {α : Type} (f : α → Bool) (l : List α) :
    landPolygonLoop (l.map fun p => some (f p)) = l.any f := by
  induction l with
  | nil => rfl
  | cons p rest ih => simp [landPolygonLoop_cons_some, ih]

/-- Containment of a point in the open box spanned by an axis-aligned
rectangle given corner-first, as all ten fallback rectangles are. -/
theorem rectWithin_box (a b c t x y : ℝ) (hac : a ≤ c) (hbt : b ≤ t) :
    rectWithin [(a, t), (c, t), (c, b), (a, b)] x y =
      (decide (a < x) && decide (x < c) && decide (b < y) && decide (y < t)) := by
  have hx1 : ((a ⊓ c) ⊓ c) ⊓ a = a := by
    rw [min_eq_left hac, min_eq_left hac, min_self]
  have hx2 : ((a ⊔ c) ⊔ c) ⊔ a = c := by
    rw [max_eq_right hac, max_self, max_eq_left hac]
  have hy1 : ((t ⊓ t) ⊓ b) ⊓ b = b := by
    rw [min_self, min_eq_right hbt, min_self]
  have hy2 : ((t ⊔ t) ⊔ b) ⊔ b = t := by
    rw [max_self, max_eq_left hbt, max_eq_left hbt]
  simp only [rectWithin, List.map_cons, List.map_nil, List.min?, List.max?,
    List.foldl_cons, List.foldl_nil]
  rw [hx1, hx2, hy1, hy2]

/-- Claim C10: with `ensure_on_land = False` the sampler draws exactly one
bearing (the head of the stream), never returns `None`, and passes the
oracle's verdict through as the `is_on_land` flag. -/
theorem c10_single_draw_flag (bearings : ℕ → ℝ) (oracle : ℝ → ℝ → Bool)
    (lat lon distanceKm : ℝ) (maxAttempts : ℕ) :
    getRandomPointAtDistance bearings oracle lat lon distanceKm false maxAttempts =
      some ((generatePointAtDistance (bearings 0) lat lon distanceKm).1,
        (generatePointAtDistance (bearings 0) lat lon distanceKm).2,
        oracle (generatePointAtDistance (bearings 0) lat lon distanceKm).1
          (generatePointAtDistance (bearings 0) lat lon distanceKm).2) := by
  simp [getRandomPointAtDistance]

/-- Claim C3: with `ensure_on_land = True`, if the land oracle rejects
every point generated within the attempt budget, the sampler returns
`None`; it is total (never raises) and never returns a point whose
on-land check failed. -/
theorem c3_sampler_rejection (bearings : ℕ → ℝ) (oracle : ℝ → ℝ → Bool)
    (lat lon distanceKm : ℝ) (maxAttempts : ℕ) (hmax : 1 ≤ maxAttempts)
    (hfalse : ∀ t, t < maxAttempts →
      oracle (generatePointAtDistance (bearings t) lat lon distanceKm).1
        (generatePointAtDistance (bearings t) lat lon distanceKm).2 = false) :
    getRandomPointAtDistance bearings oracle lat lon distanceKm true maxAttempts =
      none := by
  have : getRandomPointAtDistance bearings oracle lat lon distanceKm true maxAttempts =
      landAttempts bearings oracle lat lon distanceKm 0 maxAttempts := by
    simp [getRandomPointAtDistance]
  rw [this]
  exact landAttempts_all_false bearings oracle lat lon distanceKm 0 maxAttempts
    fun t _ ht2 => hfalse t (by omega)

/-- Witness for C3, concrete scenario D of the spec: anchor `(0, 0)`,
distance 300 km, one attempt, an oracle that always answers `false`. -/
theorem c3_sampler_rejection_witness :
    1 ≤ 1 ∧
    getRandomPointAtDistance (fun _ => 0) (fun _ _ => false) 0 0 300 true 1 = none :=
  ⟨le_refl 1, c3_sampler_rejection (fun _ => 0) (fun _ _ => false) 0 0 300 1 (le_refl 1)
    fun _ _ => rfl⟩

/-- Swallowed exceptions in the containment loop behave exactly like
`false` verdicts. -/
theorem landPolygonLoop_getD {α : Type} (within : α → Option Bool) (polys : List α) :
    landPolygonLoop (polys.map within) =
      landPolygonLoop (polys.map fun p => some ((within p).getD false)) := by
  induction polys with
  | nil => rfl
  | cons p rest ih =>
    cases h : within p with
    | none =>
      simp only [List.map_cons, h, landPolygonLoop_cons_none, Option.getD_none,
        landPolygonLoop_cons_some, Bool.false_or]
      exact ih
    | some b =>
      cases b <;>
        simp only [List.map_cons, h, Option.getD_some, landPolygonLoop_cons_some,
          Bool.false_or, Bool.true_or, ih]

/-- Claim C8: the land test is total (every fallible call of the source
is inside a `try`/`except`), and a polygon whose containment test raises
contributes exactly as a `false` (not-on-land) verdict, so failures
degrade silently instead of aborting the sampler's retry loop. -/
theorem c8_fail_closed {α : Type} (loaded : Option (List α))
    (within : α → Option Bool) (lat lon : ℝ) :
    isPointOnLand loaded within lat lon =
      isPointOnLand loaded (fun p => some ((within p).getD false)) lat lon := by
  cases loaded with
  | none => rfl
  | some polys => exact landPolygonLoop_getD within polys

/-- Claim C9: when the authoritative polygon set is unavailable, the land
test answers against the fixed fallback set of exactly ten coarse
rectangles; it reports land exactly for points strictly inside one of
the ten boxes (coordinates in degrees, `lon` the x axis). -/
theorem c9_fallback_rectangles {α : Type} (within : α → Option Bool) (lat lon : ℝ) :
    createSimplifiedLandPolygons.length = 10 ∧
    (isPointOnLand (none : Option (List α)) within lat lon = true ↔
      ((-175 < lon ∧ lon < -45 ∧ 0 < lat ∧ lat < 85) ∨
       (-95 < lon ∧ lon < -25 ∧ -65 < lat ∧ lat < 20) ∨
       (-15 < lon ∧ lon < 50 ∧ 30 < lat ∧ lat < 75) ∨
       (-25 < lon ∧ lon < 60 ∧ -45 < lat ∧ lat < 45) ∨
       (35 < lon ∧ lon < 185 ∧ -5 < lat ∧ lat < 85) ∨
       (105 < lon ∧ lon < 160 ∧ -50 < lat ∧ lat < -5) ∨
       (-185 < lon ∧ lon < 185 ∧ -95 < lat ∧ lat < -55) ∨
       (-90 < lon ∧ lon < -55 ∧ 10 < lat ∧ lat < 30) ∨
       (90 < lon ∧ lon < 130 ∧ -10 < lat ∧ lat < 25) ∨
       (130 < lon ∧ lon < 180 ∧ -30 < lat ∧ lat < 30))) := by
  constructor
  · rfl
  · show landPolygonLoop _ = true ↔ _
    simp only [createSimplifiedLandPolygons, List.map_cons, List.map_nil]
    rw [show rectWithin [((-175 : ℝ), (85 : ℝ)), (-45, 85), (-45, 0), (-175, 0)] lon lat =
        _ from rectWithin_box (-175) 0 (-45) 85 lon lat (by norm_num) (by norm_num),
      show rectWithin [((-95 : ℝ), (20 : ℝ)), (-25, 20), (-25, -65), (-95, -65)] lon lat =
        _ from rectWithin_box (-95) (-65) (-25) 20 lon lat (by norm_num) (by norm_num),
      show rectWithin [((-15 : ℝ), (75 : ℝ)), (50, 75), (50, 30), (-15, 30)] lon lat =
        _ from rectWithin_box (-15) 30 50 75 lon lat (by norm_num) (by norm_num),
      show rectWithin [((-25 : ℝ), (45 : ℝ)), (60, 45), (60, -45), (-25, -45)] lon lat =
        _ from rectWithin_box (-25) (-45) 60 45 lon lat (by norm_num) (by norm_num),
      show rectWithin [((35 : ℝ), (85 : ℝ)), (185, 85), (185, -5), (35, -5)] lon lat =
        _ from rectWithin_box 35 (-5) 185 85 lon lat (by norm_num) (by norm_num),
      show rectWithin [((105 : ℝ), (-5 : ℝ)), (160, -5), (160, -50), (105, -50)] lon lat =
        _ from rectWithin_box 105 (-50) 160 (-5) lon lat (by norm_num) (by norm_num),
      show rectWithin [((-185 : ℝ), (-55 : ℝ)), (185, -55), (185, -95), (-185, -95)] lon lat =
        _ from rectWithin_box (-185) (-95) 185 (-55) lon lat (by norm_num) (by norm_num),
      show rectWithin [((-90 : ℝ), (30 : ℝ)), (-55, 30), (-55, 10), (-90, 10)] lon lat =
        _ from rectWithin_box (-90) 10 (-55) 30 lon lat (by norm_num) (by norm_num),
      show rectWithin [((90 : ℝ), (25 : ℝ)), (130, 25), (130, -10), (90, -10)] lon lat =
        _ from rectWithin_box 90 (-10) 130 25 lon lat (by norm_num) (by norm_num),
      show rectWithin [((130 : ℝ), (30 : ℝ)), (180, 30), (180, -30), (130, -30)] lon lat =
        _ from rectWithin_box 130 (-30) 180 30 lon lat (by norm_num) (by norm_num)]
    simp [landPolygonLoop_cons_some, landPolygonLoop, and_assoc, or_assoc]

/-! Properties of the embedded `atan2` and the forward projection. -/

/-- The `atan2` value lies in `(-π, π]`, like `Complex.arg`. -/
theorem atan2_mem_Ioc (y x : ℝ) : -π < atan2 y x ∧ atan2 y x ≤ π :=
  ⟨Complex.neg_pi_lt_arg _, Complex.arg_le_pi _⟩

/-- Recover an angle in `(-π, π]` from its sine and cosine. -/
theorem atan2_sin_cos {t : ℝ} (h1 : -π < t) (h2 : t ≤ π) :
    atan2 (Real.sin t) (Real.cos t) = t := by
  unfold atan2
  rw [Complex.ofReal_sin, Complex.ofReal_cos]
  exact Complex.arg_cos_add_sin_mul_I ⟨h1, h2⟩

/-- Claim C6 (amended): the projected longitude is the origin longitude
plus a `(-180, 180]`-degree offset; no further normalization happens, so
the result lies in `(lon - 180, lon + 180]` but not necessarily in
`(-180, 180]`. -/
theorem c6_amended_longitude_window (bearing lat lon distanceKm : ℝ) :
    lon - 180 < (generatePointAtDistance bearing lat lon distanceKm).2 ∧
    (generatePointAtDistance bearing lat lon distanceKm).2 ≤ lon + 180 := by
  have hπ : (0 : ℝ) < π := pi_pos
  obtain ⟨hA1, hA2⟩ := atan2_mem_Ioc
    (Real.sin (radOf bearing) * Real.sin (distanceKm / 6371) * Real.cos (radOf lat))
    (Real.cos (distanceKm / 6371) -
      Real.sin (radOf lat) * Real.sin (Real.arcsin
        (Real.sin (radOf lat) * Real.cos (distanceKm / 6371) +
         Real.cos (radOf lat) * Real.sin (distanceKm / 6371) * Real.cos (radOf bearing))))
  set A := atan2
    (Real.sin (radOf bearing) * Real.sin (distanceKm / 6371) * Real.cos (radOf lat))
    (Real.cos (distanceKm / 6371) -
      Real.sin (radOf lat) * Real.sin (Real.arcsin
        (Real.sin (radOf lat) * Real.cos (distanceKm / 6371) +
         Real.cos (radOf lat) * Real.sin (distanceKm / 6371) * Real.cos (radOf bearing))))
    with hAdef
  have hsnd : (generatePointAtDistance bearing lat lon distanceKm).2 =
      lon + A * 180 / π := by
    simp only [generatePointAtDistance, degOf, radOf, hAdef]
    field_simp
  rw [hsnd]
  constructor
  · have : -180 < A * 180 / π := by
      rw [lt_div_iff hπ]
      nlinarith
    linarith
  · have : A * 180 / π ≤ 180 := by
      rw [div_le_iff hπ]
      nlinarith
    linarith

/-- Counterexample to Claim C6 as stated: projecting due east from
`(0, 180)` by a sixth of the Earth's circumference yields longitude 240,
outside `(-180, 180]` — the source performs no longitude
normalization. -/
theorem c6_counterexample :
    (generatePointAtDistance 90 0 180 (6371 * π / 3)).2 = 240 ∧
    (generatePointAtDistance 90 0 180 (6371 * π / 3)).2 ∉ Set.Ioc (-180 : ℝ) 180 := by
  have hπ : (0 : ℝ) < π := pi_pos
  have hrad0 : radOf 0 = 0 := by simp [radOf]
  have hrad90 : radOf 90 = π / 2 := by unfold radOf; ring
  have hrad180 : radOf 180 = π := by unfold radOf; ring
  have hdist : (6371 * π / 3) / 6371 = π / 3 := by ring
  have hval : (generatePointAtDistance 90 0 180 (6371 * π / 3)).2 = 240 := by
    simp only [generatePointAtDistance, hrad0, hrad90, hrad180, hdist, Real.sin_zero,
      Real.cos_zero, Real.sin_pi_div_two, Real.cos_pi_div_two, zero_mul, mul_zero,
      zero_add, one_mul, mul_one, sub_zero, Real.arcsin_zero]
    rw [atan2_sin_cos (by linarith) (by linarith)]
    unfold degOf
    field_simp
    ring
  refine ⟨hval, ?_⟩
  rw [hval]
  intro hmem
  have := hmem.2
  norm_num at this

/-! Equatorial evaluation of the two haversine variants, used by the
concrete scenarios (all scenario points sit on the equator). -/

/-- Absolute value commutes with sine on `[-π, π]`. -/
theorem abs_sin_eq_sin_abs {u : ℝ} (h : |u| ≤ π) : |Real.sin u| = Real.sin |u| := by
  rcases le_or_lt 0 u with hu | hu
  · rw [abs_of_nonneg hu] at h ⊢
    exact abs_of_nonneg (Real.sin_nonneg_of_nonneg_of_le_pi hu h)
  · have h1 : |u| = -u := abs_of_neg hu
    rw [h1] at h ⊢
    rw [show |Real.sin u| = |Real.sin (-u)| by rw [Real.sin_neg, abs_neg]]
    exact abs_of_nonneg (Real.sin_nonneg_of_nonneg_of_le_pi (by linarith) h)

/-- The sklearn haversine between two equatorial points in radians is the
absolute longitude difference. -/
theorem havRad_equator (a b : ℝ) (h : |b - a| ≤ π) : havRad (0, a) (0, b) = |b - a| := by
  unfold havRad
  simp only [sub_zero, zero_sub, neg_zero, zero_div, Real.sin_zero, Real.cos_zero,
    one_mul, ne_eq, OfNat.ofNat_ne_zero, not_false_eq_true, zero_pow, zero_add]
  rw [Real.sqrt_sq_eq_abs]
  have hu2 : |(b - a) / 2| = |b - a| / 2 := by
    rw [abs_div]
    norm_num
  have hu : |(b - a) / 2| ≤ π / 2 := by
    rw [hu2]
    linarith
  have hπ : (0 : ℝ) < π := pi_pos
  rw [abs_sin_eq_sin_abs (by linarith), Real.arcsin_sin (by linarith [abs_nonneg ((b - a) / 2)]) hu,
    hu2]
  ring

/-- A kilometre-scaled form of `havRad_equator` for the greedy loop. -/
theorem greedyDist_equator (l1 l2 : ℝ) (h : |l2 - l1| ≤ 180) :
    6371 * havRad (0, radOf l1) (0, radOf l2) = |l2 - l1| * (6371 * π / 180) := by
  have hπ : (0 : ℝ) < π := pi_pos
  have hdiff : radOf l2 - radOf l1 = (l2 - l1) * (π / 180) := by
    unfold radOf
    ring
  have habs : |radOf l2 - radOf l1| = |l2 - l1| * (π / 180) := by
    rw [hdiff, abs_mul, abs_of_pos (show (0 : ℝ) < π / 180 by positivity)]
  rw [havRad_equator (radOf l1) (radOf l2) (by rw [habs]; nlinarith), habs]
  ring

/-- The repair-pass haversine between two equatorial points in degrees. -/
theorem haversineDistance_equator (l1 l2 : ℝ) (h : |l2 - l1| ≤ 180) :
    haversineDistance 0 l1 0 l2 = |l2 - l1| * (6371 * π / 180) := by
  have hπ : (0 : ℝ) < π := pi_pos
  have hrad0 : radOf 0 = 0 := by simp [radOf]
  unfold haversineDistance
  simp only [hrad0, sub_self, zero_div, Real.sin_zero, Real.cos_zero, one_mul, ne_eq,
    OfNat.ofNat_ne_zero, not_false_eq_true, zero_pow, zero_add]
  have hdiff : radOf l2 - radOf l1 = (l2 - l1) * (π / 180) := by
    unfold radOf
    ring
  set u := (radOf l2 - radOf l1) / 2 with hudef
  have huval : |u| = |l2 - l1| * (π / 360) := by
    rw [hudef, hdiff, show (l2 - l1) * (π / 180) / 2 = (l2 - l1) * (π / 360) by ring,
      abs_mul, abs_of_pos (show (0 : ℝ) < π / 360 by positivity)]
  have hu : |u| ≤ π / 2 := by
    rw [huval]
    nlinarith
  have h1a : Real.sqrt (Real.sin u ^ 2) = Real.sin |u| := by
    rw [Real.sqrt_sq_eq_abs]
    exact abs_sin_eq_sin_abs (by linarith)
  have h1b : Real.sqrt (1 - Real.sin u ^ 2) = Real.cos |u| := by
    obtain ⟨hul, hur⟩ := abs_le.mp hu
    rw [show (1 : ℝ) - Real.sin u ^ 2 = Real.cos u ^ 2 by
      nlinarith [Real.sin_sq_add_cos_sq u], Real.sqrt_sq_eq_abs, Real.cos_abs u,
      abs_of_nonneg (Real.cos_nonneg_of_mem_Icc ⟨by linarith, hur⟩)]
  rw [h1a, h1b, atan2_sin_cos (by linarith [abs_nonneg u]) (by linarith), huval]
  ring

/-- Scaling by the positive constant `6371 * π / 180` preserves strict
order; all concrete scenario distances have this form. -/
theorem kcScale_lt {p q : ℝ} (h : p < q) :
    p * (6371 * π / 180) < q * (6371 * π / 180) :=
  (mul_lt_mul_right (by positivity)).mpr h

/-! Length bookkeeping for the selection pipeline (claim C4). -/

/-- Each greedy step appends exactly one index. -/
theorem greedyLoop_length (coords : List (ℝ × ℝ)) (k : ℕ) (sel : List ℕ) :
    (greedyLoop coords k sel).length = sel.length + k := by
  induction k generalizing sel with
  | zero => rfl
  | succ k ih =>
    rw [greedyLoop, ih]
    simp
    omega

/-- Row replacement keeps the frame length. -/
theorem swapRow_length (improved : List LCity) (p : ℕ) (b : City) :
    (swapRow improved p b).length = improved.length := by
  simp [swapRow]

/-- Inversion of an accepted repair iteration: it always comes from a
closest pair below the threshold, a best replacement strictly beating
the violating distance, and an in-place swap. -/
theorem postProcessIter_inv (allCities : List LCity) (minD : ℝ) (s s2 : PPState)
    (h : postProcessIter allCities minD s = some s2) :
    ∃ m i j bIdx bCity maxMin,
      scanMinPair s.improved = some (m, i, j) ∧
      m < minD ∧
      bestReplacementScan allCities s.selIdx s.improved (replaceChoice s i j) =
        (some (bIdx, bCity), maxMin) ∧
      oGT maxMin (some m) = true ∧
      s2 = ⟨swapRow s.improved (replaceChoice s i j) bCity,
        bIdx :: s.selIdx.filter fun x => x ≠ replaceChoice s i j⟩ := by
  unfold postProcessIter at h
  split at h
  · exact absurd h (by simp)
  · rename_i m i j hscan
    split at h
    · rename_i hm
      split at h
      · rename_i bIdx bCity maxMin hbest
        split at h
        · rename_i hgt
          exact ⟨m, i, j, bIdx, bCity, maxMin, hscan, hm, hbest, hgt,
            (Option.some.inj h).symm⟩
        · exact absurd h (by simp)
      · exact absurd h (by simp)
    · exact absurd h (by simp)

/-- One repair iteration keeps the frame length. -/
theorem postProcessIter_improved_length (allCities : List LCity) (minD : ℝ)
    (s s2 : PPState) (h : postProcessIter allCities minD s = some s2) :
    s2.improved.length = s.improved.length := by
  obtain ⟨m, i, j, bIdx, bCity, maxMin, _, _, _, _, hs2⟩ :=
    postProcessIter_inv allCities minD s s2 h
  rw [hs2]
  exact swapRow_length _ _ _

/-- The repair loop keeps the frame length for any fuel. -/
theorem postProcessLoop_improved_length (allCities : List LCity) (minD : ℝ)
    (fuel : ℕ) (s : PPState) :
    (postProcessLoop allCities minD fuel s).improved.length = s.improved.length := by
  induction fuel generalizing s with
  | zero => rfl
  | succ fuel ih =>
    unfold postProcessLoop
    rcases h : postProcessIter allCities minD s with _ | s2
    · rfl
    · simp only []
      rw [ih s2, postProcessIter_improved_length allCities minD s s2 h]

/-- Claim C4 (amended): for a non-empty pool the selection length is
`min (max n 1) (pool size)` — the source always selects the seed, so a
request of `n = 0` still yields one city; for `n ≥ 1` this is
`min n (pool size)` as claimed. -/
theorem c4_amended_length (citiesDf : List City) (nCities : ℕ) (minD : ℝ)
    (applyPost : Bool) (fuel : ℕ) (hne : citiesDf ≠ []) :
    (selectDispersedCities citiesDf nCities minD applyPost fuel).length =
      min (max nCities 1) citiesDf.length := by
  have hlen : 1 ≤ citiesDf.length := List.length_pos.mpr hne
  unfold selectDispersedCities
  cases applyPost with
  | false =>
    simp only [if_neg, Bool.false_eq_true, not_false_eq_true, List.length_map]
    rw [greedyIndices, greedyLoop_length]
    simp only [List.length_cons, List.length_nil]
    omega
  | true =>
    simp only [if_pos, List.length_map, postProcessCitySelection]
    rw [postProcessLoop_improved_length]
    simp only [List.enum_length, List.length_map]
    rw [greedyIndices, greedyLoop_length]
    simp only [List.length_cons, List.length_nil]
    omega

/-- Counterexample to Claim C4 as stated: with `n = 0` and a singleton
pool the source still returns the seed city, so the length is 1, not
`min 0 1 = 0`. -/
theorem c4_counterexample :
    (selectDispersedCities [⟨0, 0, 100⟩] 0 500 false 0).length = 1 ∧
    (selectDispersedCities [⟨0, 0, 100⟩] 0 500 false 0).length ≠
      min 0 ([(⟨0, 0, 100⟩ : City)] : List City).length := by
  have h : (selectDispersedCities [⟨0, 0, 100⟩] 0 500 false 0).length = 1 := by
    unfold selectDispersedCities
    simp [greedyIndices, greedyLoop]
  exact ⟨h, by rw [h]; simp⟩

/-- Witness for the amended C4 at a concrete input. -/
theorem c4_amended_length_witness :
    ([(⟨0, 0, 1⟩ : City)] ≠ ([] : List City)) ∧
    (selectDispersedCities [⟨0, 0, 1⟩] 2 500 false 0).length =
      min (max 2 1) ([(⟨0, 0, 1⟩ : City)] : List City).length :=
  ⟨by simp, c4_amended_length [⟨0, 0, 1⟩] 2 500 false 0 (by simp)⟩

/-! Step-evaluation lemmas for the numeric scans, used by the concrete
scenarios. -/

/-- The argmax scan on an exhausted array returns the best index. -/
theorem argmaxAux_nil (i bi : ℕ) (bv : ℝ) : argmaxAux [] i bi bv = bi := rfl

/-- Unfolding one argmax step. -/
theorem argmaxAux_cons (v : ℝ) (rest : List ℝ) (i bi : ℕ) (bv : ℝ) :
    argmaxAux (v :: rest) i bi bv =
      if bv < v then argmaxAux rest (i + 1) i v else argmaxAux rest (i + 1) bi bv := rfl

/-- The argmax of a non-empty array scans its tail. -/
theorem argmaxIdx_cons (v : ℝ) (rest : List ℝ) :
    argmaxIdx (v :: rest) = argmaxAux rest 1 0 v := rfl

/-- An argmax step on a strictly larger value moves the best index. -/
theorem argmaxAux_lt {bv v : ℝ} (h : bv < v) (rest : List ℝ) (i bi : ℕ) :
    argmaxAux (v :: rest) i bi bv = argmaxAux rest (i + 1) i v := by
  rw [argmaxAux_cons, if_pos h]

/-- An argmax step on a not-larger value keeps the best index. -/
theorem argmaxAux_ge {bv v : ℝ} (h : ¬ bv < v) (rest : List ℝ) (i bi : ℕ) :
    argmaxAux (v :: rest) i bi bv = argmaxAux rest (i + 1) bi bv := by
  rw [argmaxAux_cons, if_neg h]

/-- Kilometre distances between equatorial points as the greedy loop
computes them, with `radOf 0` in place of a literal zero latitude. -/
theorem greedyDist_equator2 (l1 l2 : ℝ) (h : |l2 - l1| ≤ 180) :
    6371 * havRad (radOf 0, radOf l1) (radOf 0, radOf l2) =
      |l2 - l1| * (6371 * π / 180) := by
  rw [show radOf 0 = (0 : ℝ) by simp [radOf]]
  exact greedyDist_equator l1 l2 h

/-- Claim C1 evaluated at a failing input (the code slip: `coords_rad` is
computed from the pool before the population sort, so greedy distances
are taken against stale coordinates whenever the pool is not already
sorted by descending population).  For the pool
`[(0,0) pop 50, (0,10) pop 100, (0,30) pop 60]` with `n = 2` the code
appends `(0,0)` — yet the unselected candidate with the largest coverage
gap to the selected seed `(0,10)` is `(0,30)` (sorted row 1), as the
second and third conjuncts show. -/
theorem c1_stale_coordinates_bug :
    selectDispersedCities c1Pool 2 500 false 0 = [⟨0, 10, 100⟩, ⟨0, 0, 50⟩] ∧
    argmaxIdx (minDistances ((sortPopDesc c1Pool.enum).map fun r =>
      (radOf r.2.lat, radOf r.2.lng)) [0]) = 1 ∧
    (sortPopDesc c1Pool.enum).getD 1 (0, default) = (2, ⟨0, 30, 60⟩) := by
  have hK : (0:ℝ) < 6371 * π / 180 := by positivity
  have hsort : sortPopDesc c1Pool.enum =
      [(1, ⟨0, 10, 100⟩), (2, ⟨0, 30, 60⟩), (0, ⟨0, 0, 50⟩)] := by
    norm_num [c1Pool, List.enum, List.enumFrom, sortPopDesc, insertDesc]
  have hmd : minDistances [(radOf 0, radOf 0), (radOf 0, radOf 10), (radOf 0, radOf 30)]
      [0] = [-1, 10 * (6371 * π / 180), 30 * (6371 * π / 180)] := by
    norm_num [minDistances, List.range_succ, npMin]
    constructor
    · have := greedyDist_equator2 10 0 (by norm_num)
      rw [show |(0:ℝ) - 10| = 10 by norm_num] at this
      exact this
    · have := greedyDist_equator2 30 0 (by norm_num)
      rw [show |(0:ℝ) - 30| = 30 by norm_num] at this
      exact this
  refine ⟨?_, ?_, ?_⟩
  · have hgreedy : greedyIndices (c1Pool.map fun c => (radOf c.lat, radOf c.lng))
        (min 2 c1Pool.length) = [0, 2] := by
      norm_num [c1Pool, greedyIndices, greedyLoop]
      rw [hmd]
      rw [argmaxIdx_cons, argmaxAux_lt (by nlinarith), argmaxAux_lt (by nlinarith),
        argmaxAux_nil]
    unfold selectDispersedCities
    simp only [Bool.false_eq_true, if_neg, not_false_eq_true, hsort, hgreedy]
    norm_num [hgreedy, hsort]
  · rw [hsort]
    have hmd2 : minDistances
        ([(1, (⟨0, 10, 100⟩ : City)), (2, ⟨0, 30, 60⟩), (0, ⟨0, 0, 50⟩)].map fun r =>
          (radOf r.2.lat, radOf r.2.lng)) [0] =
        [-1, 20 * (6371 * π / 180), 10 * (6371 * π / 180)] := by
      norm_num [minDistances, List.range_succ, npMin]
      constructor
      · have := greedyDist_equator2 30 10 (by norm_num)
        rw [show |(10:ℝ) - 30| = 20 by norm_num] at this
        exact this
      · have := greedyDist_equator2 0 10 (by norm_num)
        rw [show |(10:ℝ) - 0| = 10 by norm_num] at this
        exact this
    rw [hmd2, argmaxIdx_cons, argmaxAux_lt (by nlinarith), argmaxAux_ge (by nlinarith),
      argmaxAux_nil]
  · rw [hsort]
    rfl

/-- Unfolding a closest-pair scan step from the infinite sentinel. -/
theorem scanStep_none (pr : LCity × LCity) :
    scanStep none pr = some (dCity pr.1.2 pr.2.2, pr.1.1, pr.2.1) := rfl

/-- Unfolding a closest-pair scan step with a current best pair. -/
theorem scanStep_some (m : ℝ) (i j : ℕ) (pr : LCity × LCity) :
    scanStep (some (m, i, j)) pr =
      if dCity pr.1.2 pr.2.2 < m then some (dCity pr.1.2 pr.2.2, pr.1.1, pr.2.1)
      else some (m, i, j) := rfl

/-- Equatorial distances between city rows, in the `dCity` form used by
the repair pass. -/
theorem dCity_equator (l1 p1 l2 p2 : ℝ) (h : |l2 - l1| ≤ 180) :
    dCity ⟨0, l1, p1⟩ ⟨0, l2, p2⟩ = |l2 - l1| * (6371 * π / 180) :=
  haversineDistance_equator l1 l2 h

/-- Claim C2, concrete scenario A of the spec: the 5-candidate equatorial
pool with descending weights; `select` with `n = 3`, 500 km separation
and repair enabled returns exactly `(0,0), (0,40), (0,20)` in that
order, for every repair fuel (the repair loop stops on its first
iteration since the closest pair is about 2224 km apart). -/
theorem c2_concrete_scenario (fuel : ℕ) :
    selectDispersedCities c2Pool 3 500 true fuel =
      [⟨0, 0, 100⟩, ⟨0, 40, 60⟩, ⟨0, 20, 80⟩] := by
  have hK : (0:ℝ) < 6371 * π / 180 := by positivity
  have hsort : sortPopDesc c2Pool.enum =
      [(0, ⟨0, 0, 100⟩), (1, ⟨0, 10, 90⟩), (2, ⟨0, 20, 80⟩), (3, ⟨0, 30, 70⟩),
        (4, ⟨0, 40, 60⟩)] := by
    norm_num [c2Pool, List.enum, List.enumFrom, sortPopDesc, insertDesc]
  have hmd1 : minDistances [(radOf 0, radOf 0), (radOf 0, radOf 10), (radOf 0, radOf 20),
      (radOf 0, radOf 30), (radOf 0, radOf 40)] [0] =
      [-1, 10 * (6371 * π / 180), 20 * (6371 * π / 180), 30 * (6371 * π / 180),
        40 * (6371 * π / 180)] := by
    norm_num [minDistances, List.range_succ, npMin]
    refine ⟨?_, ?_, ?_, ?_⟩
    · have := greedyDist_equator2 10 0 (by norm_num)
      rw [show |(0:ℝ) - 10| = 10 by norm_num] at this
      exact this
    · have := greedyDist_equator2 20 0 (by norm_num)
      rw [show |(0:ℝ) - 20| = 20 by norm_num] at this
      exact this
    · have := greedyDist_equator2 30 0 (by norm_num)
      rw [show |(0:ℝ) - 30| = 30 by norm_num] at this
      exact this
    · have := greedyDist_equator2 40 0 (by norm_num)
      rw [show |(0:ℝ) - 40| = 40 by norm_num] at this
      exact this
  have hA1 : argmaxIdx [-1, 10 * (6371 * π / 180), 20 * (6371 * π / 180),
      30 * (6371 * π / 180), 40 * (6371 * π / 180)] = 4 := by
    rw [argmaxIdx_cons, argmaxAux_lt (by nlinarith), argmaxAux_lt (by nlinarith),
      argmaxAux_lt (by nlinarith), argmaxAux_lt (by nlinarith), argmaxAux_nil]
  have hle1 : (10:ℝ) * (6371 * π / 180) ≤ 30 * (6371 * π / 180) := by nlinarith
  have hmd2 : minDistances [(radOf 0, radOf 0), (radOf 0, radOf 10), (radOf 0, radOf 20),
      (radOf 0, radOf 30), (radOf 0, radOf 40)] [0, 4] =
      [-1, 10 * (6371 * π / 180), 20 * (6371 * π / 180), 10 * (6371 * π / 180), -1] := by
    have e10 := greedyDist_equator2 10 0 (by norm_num)
    rw [show |(0:ℝ) - 10| = 10 by norm_num] at e10
    have e14 := greedyDist_equator2 10 40 (by norm_num)
    rw [show |(40:ℝ) - 10| = 30 by norm_num] at e14
    have e20 := greedyDist_equator2 20 0 (by norm_num)
    rw [show |(0:ℝ) - 20| = 20 by norm_num] at e20
    have e24 := greedyDist_equator2 20 40 (by norm_num)
    rw [show |(40:ℝ) - 20| = 20 by norm_num] at e24
    have e30 := greedyDist_equator2 30 0 (by norm_num)
    rw [show |(0:ℝ) - 30| = 30 by norm_num] at e30
    have e34 := greedyDist_equator2 30 40 (by norm_num)
    rw [show |(40:ℝ) - 30| = 10 by norm_num] at e34
    norm_num [minDistances, List.range_succ, npMin, e10, e14, e20, e24, e30, e34,
      min_eq_left hle1, min_self, min_eq_right hle1]
  have hA2 : argmaxIdx [-1, 10 * (6371 * π / 180), 20 * (6371 * π / 180),
      10 * (6371 * π / 180), -1] = 2 := by
    rw [argmaxIdx_cons, argmaxAux_lt (by nlinarith), argmaxAux_lt (by nlinarith),
      argmaxAux_ge (by nlinarith), argmaxAux_ge (by nlinarith), argmaxAux_nil]
  have hgreedy : greedyIndices (c2Pool.map fun c => (radOf c.lat, radOf c.lng))
      (min 3 c2Pool.length) = [0, 4, 2] := by
    norm_num [c2Pool, greedyIndices, greedyLoop, hmd1, hA1, hmd2, hA2]
  have hd04 : dCity ⟨0, 0, 100⟩ ⟨0, 40, 60⟩ = 40 * (6371 * π / 180) := by
    have := dCity_equator 0 100 40 60 (by norm_num)
    rw [show |(40:ℝ) - 0| = 40 by norm_num] at this
    exact this
  have hd02 : dCity ⟨0, 0, 100⟩ ⟨0, 20, 80⟩ = 20 * (6371 * π / 180) := by
    have := dCity_equator 0 100 20 80 (by norm_num)
    rw [show |(20:ℝ) - 0| = 20 by norm_num] at this
    exact this
  have hd42 : dCity ⟨0, 40, 60⟩ ⟨0, 20, 80⟩ = 20 * (6371 * π / 180) := by
    have := dCity_equator 40 60 20 80 (by norm_num)
    rw [show |(20:ℝ) - 40| = 20 by norm_num] at this
    exact this
  have hc1 : (20:ℝ) * (6371 * π / 180) < 40 * (6371 * π / 180) := by nlinarith
  have hc2 : ¬ ((20:ℝ) * (6371 * π / 180) < 20 * (6371 * π / 180)) := by nlinarith
  have hc500 : ¬ ((20:ℝ) * (6371 * π / 180) < 500) := by nlinarith [pi_gt_three]
  have hscan : scanMinPair [(0, (⟨0, 0, 100⟩ : City)), (1, ⟨0, 40, 60⟩),
      (2, ⟨0, 20, 80⟩)] = some (20 * (6371 * π / 180), 0, 2) := by
    unfold scanMinPair
    norm_num [pairsList, scanStep_none, scanStep_some, hd04, hd02, hd42, hc1, hc2]
  have hiter : postProcessIter [(0, (⟨0, 0, 100⟩ : City)), (1, ⟨0, 10, 90⟩),
      (2, ⟨0, 20, 80⟩), (3, ⟨0, 30, 70⟩), (4, ⟨0, 40, 60⟩)] 500
      ⟨[(0, ⟨0, 0, 100⟩), (1, ⟨0, 40, 60⟩), (2, ⟨0, 20, 80⟩)], [0, 1, 2]⟩ = none := by
    unfold postProcessIter
    simp only [hscan]
    rw [if_neg hc500]
  have hpp : postProcessLoop [(0, (⟨0, 0, 100⟩ : City)), (1, ⟨0, 10, 90⟩),
      (2, ⟨0, 20, 80⟩), (3, ⟨0, 30, 70⟩), (4, ⟨0, 40, 60⟩)] 500 fuel
      ⟨[(0, ⟨0, 0, 100⟩), (1, ⟨0, 40, 60⟩), (2, ⟨0, 20, 80⟩)], [0, 1, 2]⟩ =
      ⟨[(0, ⟨0, 0, 100⟩), (1, ⟨0, 40, 60⟩), (2, ⟨0, 20, 80⟩)], [0, 1, 2]⟩ := by
    cases fuel with
    | zero => rfl
    | succ fuel =>
      unfold postProcessLoop
      rw [hiter]
  unfold selectDispersedCities
  simp only [hsort, hgreedy, eq_self_iff_true, if_true]
  norm_num [List.getD, List.enum, List.enumFrom, postProcessCitySelection, hpp]

/-! The projection round trip (claim C7). -/

/-- Radians of degrees of a value is the identity. -/
theorem radOf_degOf (t : ℝ) : radOf (degOf t) = t := by
  unfold radOf degOf
  field_simp

/-- Half-angle identity for the squared sine. -/
theorem sin_half_sq (t : ℝ) : Real.sin (t / 2) ^ 2 = (1 - Real.cos t) / 2 := by
  have h := Real.sin_sq_eq_half_sub (t / 2)
  rw [show 2 * (t / 2) = t by ring] at h
  rw [h]
  ring

set_option maxHeartbeats 2000000 in
/-- Claim C7: starting anywhere with latitude in `[-90, 90]`, any
bearing, and any distance strictly between 0 and half the Earth's
circumference, the haversine distance from the origin to the projected
destination recovers the distance exactly (and a fortiori within the
0.1% tolerance of the spec). -/
theorem c7_projection_roundtrip (lat lon bearing distanceKm : ℝ)
    (hlat1 : -90 ≤ lat) (hlat2 : lat ≤ 90)
    (hd1 : 0 < distanceKm) (hd2 : distanceKm < 6371 * π) :
    haversineDistance lat lon (generatePointAtDistance bearing lat lon distanceKm).1
        (generatePointAtDistance bearing lat lon distanceKm).2 = distanceKm ∧
    |haversineDistance lat lon (generatePointAtDistance bearing lat lon distanceKm).1
        (generatePointAtDistance bearing lat lon distanceKm).2 - distanceKm| ≤
      distanceKm * (1 / 1000) := by
  have hπ : (0:ℝ) < π := pi_pos
  obtain ⟨φ1, hφ1⟩ : ∃ t : ℝ, radOf lat = t := ⟨_, rfl⟩
  obtain ⟨θ, hθ⟩ : ∃ t : ℝ, radOf bearing = t := ⟨_, rfl⟩
  obtain ⟨δ, hδ⟩ : ∃ t : ℝ, distanceKm / 6371 = t := ⟨_, rfl⟩
  obtain ⟨s, hs⟩ : ∃ t : ℝ,
    Real.sin φ1 * Real.cos δ + Real.cos φ1 * Real.sin δ * Real.cos θ = t := ⟨_, rfl⟩
  obtain ⟨φ2, hφ2⟩ : ∃ t : ℝ, Real.arcsin s = t := ⟨_, rfl⟩
  obtain ⟨y, hy⟩ : ∃ t : ℝ, Real.sin θ * Real.sin δ * Real.cos φ1 = t := ⟨_, rfl⟩
  obtain ⟨x, hx⟩ : ∃ t : ℝ, Real.cos δ - Real.sin φ1 * Real.sin φ2 = t := ⟨_, rfl⟩
  have hφ1l : -(π / 2) ≤ φ1 := by
    rw [← hφ1]
    unfold radOf
    nlinarith
  have hφ1r : φ1 ≤ π / 2 := by
    rw [← hφ1]
    unfold radOf
    nlinarith
  have hc1 : 0 ≤ Real.cos φ1 := Real.cos_nonneg_of_mem_Icc ⟨hφ1l, hφ1r⟩
  have hδ0 : 0 < δ := by
    rw [← hδ]
    positivity
  have hδπ : δ < π := by
    rw [← hδ, div_lt_iff (by norm_num : (0:ℝ) < 6371)]
    linarith
  have hbig : (Real.cos δ * Real.cos φ1 - Real.sin φ1 * Real.sin δ * Real.cos θ) ^ 2 +
      Real.sin θ ^ 2 * Real.sin δ ^ 2 + s ^ 2 = 1 := by
    have h1 := Real.sin_sq_add_cos_sq φ1
    have h2 := Real.sin_sq_add_cos_sq θ
    have h3 := Real.sin_sq_add_cos_sq δ
    rw [← hs]
    linear_combination (Real.cos δ ^ 2 + Real.sin δ ^ 2 * Real.cos θ ^ 2) * h1 +
      Real.sin δ ^ 2 * h2 + h3
  have hs2le : s ^ 2 ≤ 1 := by
    nlinarith [sq_nonneg (Real.cos δ * Real.cos φ1 - Real.sin φ1 * Real.sin δ * Real.cos θ),
      sq_nonneg (Real.sin θ * Real.sin δ)]
  have hsl : -1 ≤ s := by nlinarith [sq_nonneg (s + 1)]
  have hsr : s ≤ 1 := by nlinarith [sq_nonneg (s - 1)]
  have hsinφ2 : Real.sin φ2 = s := by
    rw [← hφ2]
    exact Real.sin_arcsin hsl hsr
  have hcosφ2nn : 0 ≤ Real.cos φ2 := by
    rw [← hφ2]
    exact Real.cos_arcsin_nonneg s
  have hcos2 : Real.cos φ2 ^ 2 = 1 - s ^ 2 := by
    rw [← hφ2, Real.cos_arcsin, Real.sq_sqrt (by nlinarith)]
  have hxfac : x = Real.cos φ1 *
      (Real.cos δ * Real.cos φ1 - Real.sin φ1 * Real.sin δ * Real.cos θ) := by
    have h1 := Real.sin_sq_add_cos_sq φ1
    rw [← hx, hsinφ2, ← hs]
    linear_combination (-(Real.cos δ)) * h1
  have hxy : x ^ 2 + y ^ 2 = Real.cos φ1 ^ 2 * Real.cos φ2 ^ 2 := by
    rw [hxfac, ← hy, hcos2]
    linear_combination (Real.cos φ1 ^ 2) * hbig
  have habs : Real.sqrt (x ^ 2 + y ^ 2) = Real.cos φ1 * Real.cos φ2 := by
    rw [hxy, show Real.cos φ1 ^ 2 * Real.cos φ2 ^ 2 =
      (Real.cos φ1 * Real.cos φ2) ^ 2 by ring,
      Real.sqrt_sq (mul_nonneg hc1 hcosφ2nn)]
  have hkey : Real.cos φ1 * Real.cos φ2 * Real.cos (atan2 y x) = x := by
    by_cases hz : x = 0 ∧ y = 0
    · obtain ⟨hx0, hy0⟩ := hz
      have h0 : Real.cos φ1 * Real.cos φ2 = 0 := by
        rw [← habs, hx0, hy0]
        simp
      rw [h0, zero_mul, hx0]
    · have hzne : ((x : ℂ) + (y : ℂ) * Complex.I) ≠ 0 := by
        intro h0
        have hre := congrArg Complex.re h0
        have him := congrArg Complex.im h0
        simp at hre him
        exact hz ⟨hre, him⟩
      have hcosarg := Complex.cos_arg hzne
      have habsz : Complex.abs ((x : ℂ) + (y : ℂ) * Complex.I) =
          Real.sqrt (x ^ 2 + y ^ 2) := by
        rw [Complex.abs_apply, Complex.normSq_add_mul_I]
      have habspos : 0 < Complex.abs ((x : ℂ) + (y : ℂ) * Complex.I) :=
        AbsoluteValue.pos _ hzne
      have hcc : 0 < Real.cos φ1 * Real.cos φ2 := by
        rw [← habs, ← habsz]
        exact habspos
      have hne : Real.cos φ1 * Real.cos φ2 ≠ 0 := ne_of_gt hcc
      have hre2 : ((x : ℂ) + (y : ℂ) * Complex.I).re = x := by simp
      show Real.cos φ1 * Real.cos φ2 *
        Real.cos (Complex.arg ((x : ℂ) + (y : ℂ) * Complex.I)) = x
      rw [hcosarg, hre2, habsz, habs]
      field_simp
  have hcentral : Real.sin φ1 * Real.sin φ2 +
      Real.cos φ1 * Real.cos φ2 * Real.cos (atan2 y x) = Real.cos δ := by
    rw [hkey, ← hx, hsinφ2]
    ring
  have hfst : (generatePointAtDistance bearing lat lon distanceKm).1 = degOf φ2 := by
    simp only [generatePointAtDistance]
    rw [hφ1, hθ, hδ, hs, hφ2]
  have hsnd : (generatePointAtDistance bearing lat lon distanceKm).2 =
      degOf (radOf lon + atan2 y x) := by
    simp only [generatePointAtDistance]
    rw [hφ1, hθ, hδ, hs, hφ2, hy, hx]
  have hmain : haversineDistance lat lon (degOf φ2) (degOf (radOf lon + atan2 y x)) =
      distanceKm := by
    simp only [haversineDistance]
    rw [radOf_degOf, radOf_degOf, hφ1,
      show radOf lon + atan2 y x - radOf lon = atan2 y x by ring]
    have haval : Real.sin ((φ2 - φ1) / 2) ^ 2 +
        Real.cos φ1 * Real.cos φ2 * Real.sin (atan2 y x / 2) ^ 2 =
        Real.sin (δ / 2) ^ 2 := by
      rw [sin_half_sq, sin_half_sq, sin_half_sq, Real.cos_sub]
      linear_combination (-(1:ℝ)/2) * hcentral
    rw [haval]
    rw [show (1:ℝ) - Real.sin (δ / 2) ^ 2 = Real.cos (δ / 2) ^ 2 by
      nlinarith [Real.sin_sq_add_cos_sq (δ / 2)]]
    rw [Real.sqrt_sq_eq_abs, Real.sqrt_sq_eq_abs]
    rw [abs_of_nonneg (Real.sin_nonneg_of_nonneg_of_le_pi
      (show (0:ℝ) ≤ δ / 2 by linarith) (show δ / 2 ≤ π by linarith))]
    rw [abs_of_nonneg (Real.cos_nonneg_of_mem_Icc
      (show δ / 2 ∈ Set.Icc (-(π / 2)) (π / 2) from ⟨by linarith, by linarith⟩))]
    rw [@atan2_sin_cos (δ / 2) (by linarith) (by linarith), ← hδ]
    ring
  refine ⟨?_, ?_⟩
  · rw [hfst, hsnd]
    exact hmain
  · rw [hfst, hsnd, hmain, sub_self, abs_zero]
    positivity

/-- Witness for C7: origin at the intersection of the equator and prime
meridian, due north, a quarter of the circumference. -/
theorem c7_projection_roundtrip_witness :
    ((-90 : ℝ) ≤ 0 ∧ (0:ℝ) ≤ 90 ∧ (0:ℝ) < 6371 * π / 2 ∧ 6371 * π / 2 < 6371 * π) ∧
    haversineDistance 0 0 (generatePointAtDistance 0 0 0 (6371 * π / 2)).1
      (generatePointAtDistance 0 0 0 (6371 * π / 2)).2 = 6371 * π / 2 :=
  ⟨⟨by norm_num, by norm_num, by positivity, by nlinarith [pi_pos]⟩,
    (c7_projection_roundtrip 0 0 0 (6371 * π / 2) (by norm_num) (by norm_num)
      (by positivity) (by nlinarith [pi_pos])).1⟩

/-! The repair pass: counterexample machinery for claim C5. -/

/-- Unfolding a running-minimum step from the infinite sentinel. -/
theorem minFoldStep_none (d : ℝ) : minFoldStep none d = some d := rfl

/-- Unfolding a running-minimum step with a current minimum. -/
theorem minFoldStep_some (m d : ℝ) : minFoldStep (some m) d = some (min m d) := rfl

/-- The extended comparison on two finite values. -/
theorem oGT_some_some (x y : ℝ) : oGT (some x) (some y) = decide (y < x) := rfl

set_option maxHeartbeats 2000000 in
/-- Counterexample to Claim C5 as stated: in the concrete repair state
`c5State` over the pool `c5Pool`, the iteration accepts a replacement
swap (evicting `(0,0)` for `(0,120)`), yet the minimum pairwise distance
of the selection is the same before and after — about 111.2 km, realised
by the pair `(0,0)`-`(0,1)` before and by `(0,50)`-`(0,51)` after — so
an accepted swap need not strictly increase the minimum pairwise
distance. -/
theorem c5_counterexample :
    postProcessIter c5Pool 500 c5State = some c5StateAfter ∧
    minPairwiseDist c5State.improved = some (6371 * π / 180) ∧
    minPairwiseDist c5StateAfter.improved = some (6371 * π / 180) ∧
    minPairwiseDist c5StateAfter.improved = minPairwiseDist c5State.improved := by
  have hK : (0:ℝ) < 6371 * π / 180 := by positivity
  have dAB : dCity ⟨0, 0, 10⟩ ⟨0, 1, 20⟩ = 6371 * π / 180 := by
    have h := dCity_equator 0 10 1 20 (by norm_num)
    rw [show |(1:ℝ) - 0| = 1 by norm_num, one_mul] at h
    exact h
  have dAC : dCity ⟨0, 0, 10⟩ ⟨0, 50, 30⟩ = 50 * (6371 * π / 180) := by
    have h := dCity_equator 0 10 50 30 (by norm_num)
    rw [show |(50:ℝ) - 0| = 50 by norm_num] at h
    exact h
  have dAD : dCity ⟨0, 0, 10⟩ ⟨0, 51, 40⟩ = 51 * (6371 * π / 180) := by
    have h := dCity_equator 0 10 51 40 (by norm_num)
    rw [show |(51:ℝ) - 0| = 51 by norm_num] at h
    exact h
  have dBC : dCity ⟨0, 1, 20⟩ ⟨0, 50, 30⟩ = 49 * (6371 * π / 180) := by
    have h := dCity_equator 1 20 50 30 (by norm_num)
    rw [show |(50:ℝ) - 1| = 49 by norm_num] at h
    exact h
  have dBD : dCity ⟨0, 1, 20⟩ ⟨0, 51, 40⟩ = 50 * (6371 * π / 180) := by
    have h := dCity_equator 1 20 51 40 (by norm_num)
    rw [show |(51:ℝ) - 1| = 50 by norm_num] at h
    exact h
  have dCD : dCity ⟨0, 50, 30⟩ ⟨0, 51, 40⟩ = 6371 * π / 180 := by
    have h := dCity_equator 50 30 51 40 (by norm_num)
    rw [show |(51:ℝ) - 50| = 1 by norm_num, one_mul] at h
    exact h
  have dEB : dCity ⟨0, 120, 5⟩ ⟨0, 1, 20⟩ = 119 * (6371 * π / 180) := by
    have h := dCity_equator 120 5 1 20 (by norm_num)
    rw [show |(1:ℝ) - 120| = 119 by norm_num] at h
    exact h
  have dEC : dCity ⟨0, 120, 5⟩ ⟨0, 50, 30⟩ = 70 * (6371 * π / 180) := by
    have h := dCity_equator 120 5 50 30 (by norm_num)
    rw [show |(50:ℝ) - 120| = 70 by norm_num] at h
    exact h
  have dED : dCity ⟨0, 120, 5⟩ ⟨0, 51, 40⟩ = 69 * (6371 * π / 180) := by
    have h := dCity_equator 120 5 51 40 (by norm_num)
    rw [show |(51:ℝ) - 120| = 69 by norm_num] at h
    exact h
  have hn50 : ¬ ((50:ℝ) * (6371 * π / 180) < 6371 * π / 180) := by nlinarith
  have hn51 : ¬ ((51:ℝ) * (6371 * π / 180) < 6371 * π / 180) := by nlinarith
  have hn49 : ¬ ((49:ℝ) * (6371 * π / 180) < 6371 * π / 180) := by nlinarith
  have hn1 : ¬ ((6371:ℝ) * π / 180 < 6371 * π / 180) := by nlinarith
  have hscan0 : scanMinPair c5State.improved = some (6371 * π / 180, 0, 1) := by
    unfold scanMinPair c5State
    norm_num [pairsList, c5A, c5B, c5C, c5D]
    norm_num [scanStep_none, scanStep_some, dAB, dAC, dAD, dBC, dBD, dCD, hn50, hn51,
      hn49, hn1]
  have hy1 : (70:ℝ) * (6371 * π / 180) < 119 * (6371 * π / 180) := by nlinarith
  have hy2 : (69:ℝ) * (6371 * π / 180) < 70 * (6371 * π / 180) := by nlinarith
  have hy3 : (49:ℝ) * (6371 * π / 180) < 69 * (6371 * π / 180) := by nlinarith
  have hy4 : ¬ ((50:ℝ) * (6371 * π / 180) < 49 * (6371 * π / 180)) := by nlinarith
  have hy5 : (6371:ℝ) * π / 180 < 49 * (6371 * π / 180) := by nlinarith
  have hscan1 : scanMinPair c5StateAfter.improved = some (6371 * π / 180, 2, 3) := by
    unfold scanMinPair c5StateAfter
    norm_num [pairsList, c5E, c5B, c5C, c5D]
    norm_num [scanStep_none, scanStep_some, dEB, dEC, dED, dBC, dBD, dCD, hy1, hy2,
      hy3, hy4, hy5]
  have hminEx : minDistExcluding [(0, (⟨0, 0, 10⟩ : City)), (1, ⟨0, 1, 20⟩),
      (2, ⟨0, 50, 30⟩), (3, ⟨0, 51, 40⟩)] 0 ⟨0, 120, 5⟩ =
      some (69 * (6371 * π / 180)) := by
    unfold minDistExcluding
    norm_num [minFoldStep_none, minFoldStep_some, dEB, dEC, dED,
      min_eq_right (le_of_lt hy1), min_eq_right (le_of_lt hy2)]
  have hrow0 : rowAt c5State.improved 0 = (⟨0, 0, 10⟩ : City) := rfl
  have hrow1 : rowAt c5State.improved 1 = (⟨0, 1, 20⟩ : City) := rfl
  have hrc : replaceChoice c5State 0 1 = 0 := by
    unfold replaceChoice
    rw [hrow0, hrow1]
    norm_num
  have hbest : bestReplacementScan c5Pool [0, 1, 2, 3]
      [(0, (⟨0, 0, 10⟩ : City)), (1, ⟨0, 1, 20⟩), (2, ⟨0, 50, 30⟩), (3, ⟨0, 51, 40⟩)]
      0 = (some (4, (⟨0, 120, 5⟩ : City)), some (69 * (6371 * π / 180))) := by
    unfold bestReplacementScan c5Pool
    norm_num [bestStep, c5A, c5B, c5C, c5D, c5E, hminEx, oGT_some_some,
      show (0:ℝ) < 69 * (6371 * π / 180) by positivity]
  have hlt500 : (6371:ℝ) * π / 180 < 500 := by nlinarith [pi_lt_315]
  have hogt : oGT (some (69 * (6371 * π / 180))) (some (6371 * π / 180)) = true := by
    rw [oGT_some_some, decide_eq_true_eq]
    nlinarith
  have hiter : postProcessIter c5Pool 500 c5State = some c5StateAfter := by
    unfold postProcessIter
    simp only [hscan0]
    rw [if_pos hlt500]
    rw [hrc, show c5State.selIdx = [0, 1, 2, 3] from rfl,
      show c5State.improved = [(0, (⟨0, 0, 10⟩ : City)), (1, ⟨0, 1, 20⟩),
        (2, ⟨0, 50, 30⟩), (3, ⟨0, 51, 40⟩)] from rfl, hbest]
    simp only [hogt, if_true]
    unfold c5StateAfter
    norm_num [swapRow, c5B, c5C, c5D, c5E]
  refine ⟨hiter, ?_, ?_, ?_⟩
  · unfold minPairwiseDist
    rw [hscan0]
    rfl
  · unfold minPairwiseDist
    rw [hscan1]
    rfl
  · unfold minPairwiseDist
    rw [hscan0, hscan1]
    rfl

/-! Fold and structure lemmas for the repair pass (claim C5, amended). -/

/-- The closest-pair scan step never produces the sentinel. -/
theorem scanStep_ne_none (acc : Option (ℝ × ℕ × ℕ)) (pr : LCity × LCity) :
    scanStep acc pr ≠ none := by
  rcases acc with _ | ⟨m, i, j⟩
  · rw [scanStep_none]
    simp
  · rw [scanStep_some]
    split <;> simp

/-- A scan that ends in the sentinel visited no pair. -/
theorem scanFold_none (ps : List (LCity × LCity)) :
    ∀ acc, ps.foldl scanStep acc = none → ps = [] ∧ acc = none := by
  induction ps with
  | nil => exact fun acc h => ⟨rfl, h⟩
  | cons pr rest ih =>
    intro acc h
    rw [List.foldl_cons] at h
    obtain ⟨-, h2⟩ := ih (scanStep acc pr) h
    exact absurd h2 (scanStep_ne_none acc pr)

/-- The scan value is a lower bound on every visited distance and on the
incoming accumulator. -/
theorem scanFold_le (ps : List (LCity × LCity)) :
    ∀ acc m i j, ps.foldl scanStep acc = some (m, i, j) →
      (∀ pr ∈ ps, m ≤ dCity pr.1.2 pr.2.2) ∧
      (∀ m0 i0 j0, acc = some (m0, i0, j0) → m ≤ m0) := by
  induction ps with
  | nil =>
    intro acc m i j h
    refine ⟨by simp, fun m0 i0 j0 h0 => ?_⟩
    rw [h0] at h
    simp at h
    exact le_of_eq h.1.symm
  | cons pr rest ih =>
    intro acc m i j h
    rw [List.foldl_cons] at h
    obtain ⟨h1, h2⟩ := ih (scanStep acc pr) m i j h
    rcases acc with _ | ⟨m0, i0, j0⟩
    · have hd : m ≤ dCity pr.1.2 pr.2.2 := h2 _ _ _ (scanStep_none pr)
      refine ⟨?_, fun m1 i1 j1 h0 => absurd h0 (by simp)⟩
      intro pr2 hpr2
      rcases List.mem_cons.mp hpr2 with h0 | h0
      · rw [h0]
        exact hd
      · exact h1 pr2 h0
    · by_cases hlt : dCity pr.1.2 pr.2.2 < m0
      · have hd : m ≤ dCity pr.1.2 pr.2.2 :=
          h2 _ _ _ (by rw [scanStep_some, if_pos hlt])
        have hm0 : m ≤ m0 := le_trans hd (le_of_lt hlt)
        refine ⟨?_, ?_⟩
        · intro pr2 hpr2
          rcases List.mem_cons.mp hpr2 with h0 | h0
          · rw [h0]
            exact hd
          · exact h1 pr2 h0
        · intro m1 i1 j1 h0
          simp at h0
          rw [← h0.1]
          exact hm0
      · have hm0 : m ≤ m0 := h2 _ _ _ (by rw [scanStep_some, if_neg hlt])
        have hd : m ≤ dCity pr.1.2 pr.2.2 := le_trans hm0 (not_lt.mp hlt)
        refine ⟨?_, ?_⟩
        · intro pr2 hpr2
          rcases List.mem_cons.mp hpr2 with h0 | h0
          · rw [h0]
            exact hd
          · exact h1 pr2 h0
        · intro m1 i1 j1 h0
          simp at h0
          rw [← h0.1]
          exact hm0

/-- The scan value is attained by a visited pair (with its labels)
unless it came in through the accumulator. -/
theorem scanFold_attain (ps : List (LCity × LCity)) :
    ∀ acc m i j, ps.foldl scanStep acc = some (m, i, j) →
      (∃ pr ∈ ps, pr.1.1 = i ∧ pr.2.1 = j ∧ dCity pr.1.2 pr.2.2 = m) ∨
        acc = some (m, i, j) := by
  induction ps with
  | nil =>
    intro acc m i j h
    exact Or.inr h
  | cons pr rest ih =>
    intro acc m i j h
    rw [List.foldl_cons] at h
    rcases ih (scanStep acc pr) m i j h with h0 | h0
    · obtain ⟨pr2, hmem, hprop⟩ := h0
      exact Or.inl ⟨pr2, List.mem_cons_of_mem pr hmem, hprop⟩
    · rcases acc with _ | ⟨m0, i0, j0⟩
      · rw [scanStep_none] at h0
        simp at h0
        exact Or.inl ⟨pr, List.mem_cons_self pr rest, h0.2.1, h0.2.2, h0.1⟩
      · rw [scanStep_some] at h0
        by_cases hlt : dCity pr.1.2 pr.2.2 < m0
        · rw [if_pos hlt] at h0
          simp at h0
          exact Or.inl ⟨pr, List.mem_cons_self pr rest, h0.2.1, h0.2.2, h0.1⟩
        · rw [if_neg hlt] at h0
          exact Or.inr h0

/-- Membership in the pair scan list: components are rows and the first
label is smaller. -/
theorem pairsList_mem {improved : List LCity} {pr : LCity × LCity}
    (h : pr ∈ pairsList improved) :
    pr.1 ∈ improved ∧ pr.2 ∈ improved ∧ pr.1.1 < pr.2.1 := by
  unfold pairsList at h
  rw [List.mem_flatMap] at h
  obtain ⟨r1, hr1, hpr⟩ := h
  rw [List.mem_map] at hpr
  obtain ⟨r2, hr2, hpr2⟩ := hpr
  rw [List.mem_filter] at hr2
  subst hpr2
  exact ⟨hr1, hr2.1, by simpa using hr2.2⟩

/-- A label-preserving row transformation commutes with the pair scan
list. -/
theorem pairsList_map (g : LCity → LCity) (hg : ∀ r, (g r).1 = r.1) (l : List LCity) :
    pairsList (l.map g) = (pairsList l).map fun pr => (g pr.1, g pr.2) := by
  simp only [pairsList, List.map_flatMap, List.flatMap_map, List.filter_map,
    List.map_map]
  congr 1
  funext a
  simp only [Function.comp_def, hg]

/-- The pair scan list of a swapped frame is the rowwise-swapped pair
scan list. -/
theorem pairsList_swapRow (improved : List LCity) (p : ℕ) (b : City) :
    pairsList (swapRow improved p b) =
      (pairsList improved).map fun pr =>
        ((if pr.1.1 = p then (p, b) else pr.1), (if pr.2.1 = p then (p, b) else pr.2)) := by
  unfold swapRow
  exact pairsList_map (fun r => if r.1 = p then (p, b) else r)
    (fun r => by
      show (if r.1 = p then (p, b) else r).1 = r.1
      split <;> simp_all) improved

/-- The repair-pass haversine is symmetric. -/
theorem dCity_symm (a b : City) : dCity a b = dCity b a := by
  unfold dCity haversineDistance
  have ha : Real.sin ((radOf a.lat - radOf b.lat) / 2) ^ 2 +
      Real.cos (radOf b.lat) * Real.cos (radOf a.lat) *
        Real.sin ((radOf a.lng - radOf b.lng) / 2) ^ 2 =
      Real.sin ((radOf b.lat - radOf a.lat) / 2) ^ 2 +
      Real.cos (radOf a.lat) * Real.cos (radOf b.lat) *
        Real.sin ((radOf b.lng - radOf a.lng) / 2) ^ 2 := by
    rw [show (radOf a.lat - radOf b.lat) / 2 = -((radOf b.lat - radOf a.lat) / 2) by ring,
      show (radOf a.lng - radOf b.lng) / 2 = -((radOf b.lng - radOf a.lng) / 2) by ring,
      Real.sin_neg, Real.sin_neg]
    ring
  simp only []
  rw [ha]

/-- The running-minimum fold never returns the sentinel on a non-empty
list, and bounds every element and the incoming accumulator. -/
theorem minFold_le (ds : List ℝ) :
    ∀ acc v, ds.foldl minFoldStep acc = some v →
      (∀ d ∈ ds, v ≤ d) ∧ (∀ v0, acc = some v0 → v ≤ v0) := by
  induction ds with
  | nil =>
    intro acc v h
    refine ⟨by simp, fun v0 h0 => ?_⟩
    rw [h0] at h
    simp at h
    exact le_of_eq h.symm
  | cons d rest ih =>
    intro acc v h
    rw [List.foldl_cons] at h
    obtain ⟨h1, h2⟩ := ih (minFoldStep acc d) v h
    rcases acc with _ | v0
    · have hd : v ≤ d := h2 d (minFoldStep_none d)
      refine ⟨?_, fun v1 h0 => absurd h0 (by simp)⟩
      intro d2 hd2
      rcases List.mem_cons.mp hd2 with h0 | h0
      · rw [h0]
        exact hd
      · exact h1 d2 h0
    · have hmin : v ≤ min v0 d := h2 _ (minFoldStep_some v0 d)
      refine ⟨?_, ?_⟩
      · intro d2 hd2
        rcases List.mem_cons.mp hd2 with h0 | h0
        · rw [h0]
          exact le_trans hmin (min_le_right v0 d)
        · exact h1 d2 h0
      · intro v1 h0
        simp at h0
        rw [← h0]
        exact le_trans hmin (min_le_left v0 d)

/-- The running-minimum fold returns the sentinel only on an empty
list. -/
theorem minFold_none (ds : List ℝ) :
    ∀ acc, ds.foldl minFoldStep acc = none → ds = [] ∧ acc = none := by
  induction ds with
  | nil => exact fun acc h => ⟨rfl, h⟩
  | cons d rest ih =>
    intro acc h
    rw [List.foldl_cons] at h
    obtain ⟨-, h2⟩ := ih (minFoldStep acc d) h
    rcases acc with _ | v0
    · rw [minFoldStep_none] at h2
      exact absurd h2 (by simp)
    · rw [minFoldStep_some] at h2
      exact absurd h2 (by simp)

/-- A finite replacement minimum bounds the distance to every remaining
selected row. -/
theorem minDistExcluding_le {improved : List LCity} {p : ℕ} {c : City} {v : ℝ}
    (h : minDistExcluding improved p c = some v) :
    ∀ r ∈ improved, r.1 ≠ p → v ≤ dCity c r.2 := by
  intro r hr hrp
  have hmem : dCity c r.2 ∈
      ((improved.filter fun r2 => r2.1 ≠ p).map fun r2 => dCity c r2.2) := by
    rw [List.mem_map]
    exact ⟨r, List.mem_filter.mpr ⟨hr, by simpa using hrp⟩, rfl⟩
  exact (minFold_le _ none v h).1 _ hmem

/-- An infinite replacement minimum means every selected row carries the
replaced label. -/
theorem minDistExcluding_none {improved : List LCity} {p : ℕ} {c : City}
    (h : minDistExcluding improved p c = none) :
    ∀ r ∈ improved, r.1 = p := by
  intro r hr
  obtain ⟨h1, -⟩ := minFold_none _ none h
  by_contra hrp
  have : r ∈ improved.filter fun r2 => r2.1 ≠ p :=
    List.mem_filter.mpr ⟨hr, by simpa using hrp⟩
  rw [List.map_eq_nil_iff] at h1
  rw [h1] at this
  exact absurd this (List.not_mem_nil r)

/-- Invariant of the replacement-search fold: a returned candidate comes
from the scanned pool, its label is unselected, and the reported maximum
is exactly its replacement minimum — unless the accumulator was returned
untouched. -/
theorem bestFold_inv (selIdx : List ℕ) (improved : List LCity) (replaceIdx : ℕ)
    (cs : List LCity) :
    ∀ acc bi bc mm,
      cs.foldl (bestStep selIdx improved replaceIdx) acc = (some (bi, bc), mm) →
      ((bi, bc) ∈ cs ∧ bi ∉ selIdx ∧ mm = minDistExcluding improved replaceIdx bc) ∨
        acc = (some (bi, bc), mm) := by
  induction cs with
  | nil => exact fun acc bi bc mm h => Or.inr h
  | cons c rest ih =>
    intro acc bi bc mm h
    rw [List.foldl_cons] at h
    rcases ih _ bi bc mm h with ⟨h1, h2, h3⟩ | heq
    · exact Or.inl ⟨List.mem_cons_of_mem _ h1, h2, h3⟩
    · unfold bestStep at heq
      split at heq
      · exact Or.inr heq
      · rename_i hcsel
        split at heq
        · left
          rw [Prod.mk.injEq, Option.some.injEq, Prod.mk.injEq] at heq
          obtain ⟨⟨hb1, hb2⟩, hb3⟩ := heq
          subst hb1
          subst hb2
          exact ⟨by rw [Prod.mk.eta]; exact List.mem_cons_self c rest, hcsel, hb3.symm⟩
        · exact Or.inr heq

/-- The replacement search returns a pool member with an unselected
label, reporting as maximum exactly its replacement minimum. -/
theorem bestReplacementScan_inv (allCities : List LCity) (selIdx : List ℕ)
    (improved : List LCity) (p bIdx : ℕ) (bCity : City) (maxMin : Option ℝ)
    (h : bestReplacementScan allCities selIdx improved p = (some (bIdx, bCity), maxMin)) :
    (bIdx, bCity) ∈ allCities ∧ maxMin = minDistExcluding improved p bCity := by
  unfold bestReplacementScan at h
  rcases bestFold_inv selIdx improved p allCities (none, some 0) bIdx bCity maxMin h with
    ⟨h1, -, h3⟩ | heq
  · exact ⟨h1, h3⟩
  · rw [Prod.mk.injEq] at heq
    exact absurd heq.1 (by simp)

/-- A pointwise-dominated predicate with a strict witness has a strictly
smaller count. -/
theorem countP_lt_of {α : Type} (p q : α → Bool) (l : List α) :
    (∀ x ∈ l, q x = true → p x = true) →
    ∀ x₀, x₀ ∈ l → p x₀ = true → q x₀ = false →
    l.countP q < l.countP p := by
  induction l with
  | nil =>
    intro _ x₀ hx₀ _ _
    exact absurd hx₀ (List.not_mem_nil x₀)
  | cons a rest ih =>
    intro hpq x₀ hx₀ hp hq
    have hle : rest.countP q ≤ rest.countP p :=
      List.countP_mono_left fun x hx => hpq x (List.mem_cons_of_mem _ hx)
    rcases List.mem_cons.mp hx₀ with h0 | h0
    · subst h0
      rw [List.countP_cons_of_pos _ _ hp, List.countP_cons_of_neg _ _ (by simp [hq])]
      omega
    · have hlt : rest.countP q < rest.countP p :=
        ih (fun x hx => hpq x (List.mem_cons_of_mem _ hx)) x₀ h0 hp hq
      rw [List.countP_cons, List.countP_cons]
      have : (if q a then 1 else 0) ≤ (if p a then 1 else 0) := by
        by_cases hqa : q a = true
        · rw [if_pos hqa, if_pos (hpq a (List.mem_cons_self a rest) hqa)]
        · rw [if_neg hqa]
          omega
      omega

/-- Distances between pool cities lie in the realizable pool-distance
set. -/
theorem dCity_mem_poolDists {allCities : List LCity} {a b : City}
    (ha : a ∈ allCities.map Prod.snd) (hb : b ∈ allCities.map Prod.snd) :
    dCity a b ∈ poolDists allCities := by
  unfold poolDists
  rw [List.mem_toFinset, List.mem_flatMap]
  exact ⟨a, ha, List.mem_map.mpr ⟨b, hb, rfl⟩⟩

/-- Unfolding the termination potential at a state with a closest
pair. -/
theorem muRepair_some (allCities : List LCity) (s : PPState) (m : ℝ) (i j : ℕ)
    (h : scanMinPair s.improved = some (m, i, j)) :
    muRepair allCities s =
      ((poolDists allCities).filter fun z => m ≤ z).card *
        ((pairsList s.improved).length + 1) +
        ((pairsList s.improved).countP fun pr => decide (dCity pr.1.2 pr.2.2 = m)) := by
  unfold muRepair
  rw [h]

/-- Any pair touched by an accepted swap moves to distance strictly above
the old closest-pair distance. -/
theorem swapPair_bound (s : PPState) (p : ℕ) (bCity : City) (m : ℝ) (maxMin : Option ℝ)
    (hmde : minDistExcluding s.improved p bCity = maxMin)
    (hgt : oGT maxMin (some m) = true) :
    ∀ pr ∈ pairsList s.improved, pr.1.1 = p ∨ pr.2.1 = p →
      m < dCity (if pr.1.1 = p then ((p, bCity) : LCity) else pr.1).2
            (if pr.2.1 = p then ((p, bCity) : LCity) else pr.2).2 := by
  intro pr hpr htouch
  obtain ⟨h1, h2, hlt⟩ := pairsList_mem hpr
  rcases maxMin with _ | v
  · have hall := minDistExcluding_none hmde
    rcases htouch with ht | ht
    · have h2p : pr.2.1 = p := hall pr.2 h2
      omega
    · have h1p : pr.1.1 = p := hall pr.1 h1
      omega
  · have hmv : m < v := by
      rw [oGT_some_some] at hgt
      exact of_decide_eq_true hgt
    rcases htouch with ht | ht
    · have hne : ¬pr.2.1 = p := by omega
      have hv := minDistExcluding_le hmde pr.2 h2 hne
      rw [if_pos ht, if_neg hne]
      show m < dCity bCity pr.2.2
      linarith
    · have hne : ¬pr.1.1 = p := by omega
      have hv := minDistExcluding_le hmde pr.1 h1 hne
      rw [if_neg hne, if_pos ht]
      show m < dCity pr.1.2 bCity
      rw [dCity_symm]
      linarith

/-- Unfolding one fueled loop step at an accepted iteration. -/
theorem postProcessLoop_succ_some (allCities : List LCity) (minD : ℝ) (fuel : ℕ)
    (s s2 : PPState) (h : postProcessIter allCities minD s = some s2) :
    postProcessLoop allCities minD (fuel + 1) s = postProcessLoop allCities minD fuel s2 := by
  show (match postProcessIter allCities minD s with
    | none => s
    | some s2 => postProcessLoop allCities minD fuel s2) =
      postProcessLoop allCities minD fuel s2
  rw [h]

/-- An accepted repair swap never decreases the minimum pairwise
distance of the selection. -/
theorem postProcessIter_mono (allCities : List LCity) (minD : ℝ) (s s2 : PPState)
    (h : postProcessIter allCities minD s = some s2) :
    oLE (minPairwiseDist s.improved) (minPairwiseDist s2.improved) := by
  obtain ⟨m, i, j, bIdx, bCity, maxMin, hscan, hm, hbest, hgt, hs2⟩ :=
    postProcessIter_inv allCities minD s s2 h
  obtain ⟨-, hmde⟩ := bestReplacementScan_inv allCities s.selIdx s.improved
    (replaceChoice s i j) bIdx bCity maxMin hbest
  have hmp : minPairwiseDist s.improved = some m := by
    unfold minPairwiseDist
    rw [hscan]
    rfl
  have hs2i : s2.improved = swapRow s.improved (replaceChoice s i j) bCity := by
    rw [hs2]
  rw [hmp, hs2i]
  rcases hscan2 : scanMinPair (swapRow s.improved (replaceChoice s i j) bCity) with
    _ | ⟨m', i', j'⟩
  · show oLE (some m) ((scanMinPair _).map _)
    rw [hscan2]
    exact trivial
  · show oLE (some m) ((scanMinPair _).map _)
    rw [hscan2]
    show m ≤ m'
    unfold scanMinPair at hscan2
    rcases scanFold_attain _ none m' i' j' hscan2 with ⟨pr', hpr', -, -, hdist⟩ | habs
    · rw [pairsList_swapRow] at hpr'
      rw [List.mem_map] at hpr'
      obtain ⟨pr, hpr, hg⟩ := hpr'
      rw [← hg] at hdist
      by_cases hto : pr.1.1 = replaceChoice s i j ∨ pr.2.1 = replaceChoice s i j
      · have := swapPair_bound s (replaceChoice s i j) bCity m maxMin hmde.symm hgt
          pr hpr hto
        rw [hdist] at this
        exact le_of_lt this
      · push_neg at hto
        rw [if_neg hto.1, if_neg hto.2] at hdist
        unfold scanMinPair at hscan
        have := (scanFold_le _ none m i j hscan).1 pr hpr
        rw [hdist] at this
        exact this
    · exact absurd habs (by simp)

/-- The eviction choice is one of the two closest-pair labels. -/
theorem replaceChoice_or (s : PPState) (i j : ℕ) :
    replaceChoice s i j = i ∨ replaceChoice s i j = j := by
  unfold replaceChoice
  split
  · exact Or.inl rfl
  · exact Or.inr rfl

/-- An accepted repair swap keeps every selected city inside the pool. -/
theorem postProcessIter_hsel (allCities : List LCity) (minD : ℝ) (s s2 : PPState)
    (hsel : ∀ r ∈ s.improved, r.2 ∈ allCities.map Prod.snd)
    (h : postProcessIter allCities minD s = some s2) :
    ∀ r ∈ s2.improved, r.2 ∈ allCities.map Prod.snd := by
  obtain ⟨m, i, j, bIdx, bCity, maxMin, hscan, hm, hbest, hgt, hs2⟩ :=
    postProcessIter_inv allCities minD s s2 h
  obtain ⟨hmem, -⟩ := bestReplacementScan_inv allCities s.selIdx s.improved
    (replaceChoice s i j) bIdx bCity maxMin hbest
  have hs2i : s2.improved = swapRow s.improved (replaceChoice s i j) bCity := by
    rw [hs2]
  rw [hs2i]
  intro r hr
  unfold swapRow at hr
  rw [List.mem_map] at hr
  obtain ⟨r0, hr0, hrr⟩ := hr
  rw [← hrr]
  show (if r0.1 = replaceChoice s i j then ((replaceChoice s i j, bCity) : LCity)
    else r0).2 ∈ allCities.map Prod.snd
  split
  · exact List.mem_map.mpr ⟨(bIdx, bCity), hmem, rfl⟩
  · exact hsel r0 hr0

set_option maxHeartbeats 1000000 in
/-- Every accepted repair swap strictly decreases the termination
potential, provided the selection stays inside the pool. -/
theorem postProcessIter_mu (allCities : List LCity) (minD : ℝ) (s s2 : PPState)
    (hsel : ∀ r ∈ s.improved, r.2 ∈ allCities.map Prod.snd)
    (h : postProcessIter allCities minD s = some s2) :
    muRepair allCities s2 < muRepair allCities s := by
  have hmono := postProcessIter_mono allCities minD s s2 h
  obtain ⟨m, i, j, bIdx, bCity, maxMin, hscan, hm, hbest, hgt, hs2⟩ :=
    postProcessIter_inv allCities minD s s2 h
  obtain ⟨-, hmde⟩ := bestReplacementScan_inv allCities s.selIdx s.improved
    (replaceChoice s i j) bIdx bCity maxMin hbest
  have hs2i : s2.improved = swapRow s.improved (replaceChoice s i j) bCity := by
    rw [hs2]
  have hscanF := hscan
  unfold scanMinPair at hscanF
  rcases scanFold_attain _ none m i j hscanF with ⟨pr₀, hpr₀, hi₀, hj₀, hd₀⟩ | habs
  swap
  · exact absurd habs (by simp)
  obtain ⟨h01, h02, h0lt⟩ := pairsList_mem hpr₀
  have hmpool : m ∈ poolDists allCities := by
    rw [← hd₀]
    exact dCity_mem_poolDists (hsel pr₀.1 h01) (hsel pr₀.2 h02)
  rcases hscan2 : scanMinPair s2.improved with _ | ⟨m', i', j'⟩
  · have h2F := hscan2
    unfold scanMinPair at h2F
    obtain ⟨hnil, -⟩ := scanFold_none _ none h2F
    rw [hs2i, pairsList_swapRow, List.map_eq_nil_iff] at hnil
    rw [hnil] at hpr₀
    exact absurd hpr₀ (List.not_mem_nil pr₀)
  have hmm : m ≤ m' := by
    have hmp : minPairwiseDist s.improved = some m := by
      unfold minPairwiseDist
      rw [hscan]
      rfl
    have hmp2 : minPairwiseDist s2.improved = some m' := by
      unfold minPairwiseDist
      rw [hscan2]
      rfl
    rw [hmp, hmp2] at hmono
    exact hmono
  have hbound := swapPair_bound s (replaceChoice s i j) bCity m maxMin hmde.symm hgt
  rw [muRepair_some allCities s m i j hscan, muRepair_some allCities s2 m' i' j' hscan2]
  rw [hs2i, pairsList_swapRow, List.length_map, List.countP_map]
  rcases lt_or_eq_of_le hmm with hcase | hcase
  · have hsub : (poolDists allCities).filter (fun z => m' ≤ z) ⊆
        (poolDists allCities).filter fun z => m ≤ z := by
      intro z hz
      rw [Finset.mem_filter] at hz ⊢
      exact ⟨hz.1, le_trans hmm hz.2⟩
    have hcard : ((poolDists allCities).filter fun z => m' ≤ z).card <
        ((poolDists allCities).filter fun z => m ≤ z).card := by
      apply Finset.card_lt_card
      rw [Finset.ssubset_iff_of_subset hsub]
      exact ⟨m, Finset.mem_filter.mpr ⟨hmpool, le_refl m⟩, by
        rw [Finset.mem_filter]
        push_neg
        intro _
        exact hcase⟩
    have hcount : ((pairsList s.improved).countP
        ((fun pr => decide (dCity pr.1.2 pr.2.2 = m')) ∘ fun pr =>
          (if pr.1.1 = replaceChoice s i j then (replaceChoice s i j, bCity) else pr.1,
           if pr.2.1 = replaceChoice s i j then (replaceChoice s i j, bCity) else pr.2))) ≤
        (pairsList s.improved).length :=
      List.countP_le_length _
    set A' := ((poolDists allCities).filter fun z => m' ≤ z).card with hA'
    set A := ((poolDists allCities).filter fun z => m ≤ z).card with hA
    set K := (pairsList s.improved).length with hK
    set C' := ((pairsList s.improved).countP
        ((fun pr => decide (dCity pr.1.2 pr.2.2 = m')) ∘ fun pr =>
          (if pr.1.1 = replaceChoice s i j then (replaceChoice s i j, bCity) else pr.1,
           if pr.2.1 = replaceChoice s i j then (replaceChoice s i j, bCity) else pr.2)))
      with hC'
    calc A' * (K + 1) + C' < A' * (K + 1) + (K + 1) := by omega
      _ = (A' + 1) * (K + 1) := by ring
      _ ≤ A * (K + 1) := Nat.mul_le_mul_right (K + 1) hcard
      _ ≤ A * (K + 1) + (pairsList s.improved).countP
            (fun pr => decide (dCity pr.1.2 pr.2.2 = m)) := Nat.le_add_right _ _
  · subst hcase
    apply Nat.add_lt_add_left
    apply countP_lt_of _ _ (pairsList s.improved) ?_ pr₀ hpr₀ ?_ ?_
    · intro pr hpr hq
      rw [Function.comp_apply, decide_eq_true_eq] at hq
      rw [decide_eq_true_eq]
      by_cases hto : pr.1.1 = replaceChoice s i j ∨ pr.2.1 = replaceChoice s i j
      · have := hbound pr hpr hto
        rw [hq] at this
        exact absurd this (lt_irrefl m)
      · push_neg at hto
        rw [if_neg hto.1, if_neg hto.2] at hq
        exact hq
    · rw [decide_eq_true_eq]
      exact hd₀
    · rw [Function.comp_apply]
      have hto : pr₀.1.1 = replaceChoice s i j ∨ pr₀.2.1 = replaceChoice s i j := by
        rcases replaceChoice_or s i j with hp | hp
        · left
          omega
        · right
          omega
      have := hbound pr₀ hpr₀ hto
      rw [decide_eq_false_iff_not]
      exact fun hEq => absurd (hEq ▸ this) (lt_irrefl m)

/-- Strong induction on the termination potential: the fueled repair loop
reaches the source loop's own stopping condition in finitely many
accepted swaps. -/
theorem postProcessLoop_terminates (allCities : List LCity) (minD : ℝ) :
    ∀ μ s, muRepair allCities s ≤ μ →
      (∀ r ∈ s.improved, r.2 ∈ allCities.map Prod.snd) →
      ∃ N, postProcessIter allCities minD (postProcessLoop allCities minD N s) = none := by
  intro μ
  induction μ with
  | zero =>
    intro s hμ hsel
    rcases hiter : postProcessIter allCities minD s with _ | s2
    · exact ⟨0, hiter⟩
    · have := postProcessIter_mu allCities minD s s2 hsel hiter
      omega
  | succ n ih =>
    intro s hμ hsel
    rcases hiter : postProcessIter allCities minD s with _ | s2
    · exact ⟨0, hiter⟩
    · have hlt := postProcessIter_mu allCities minD s s2 hsel hiter
      obtain ⟨N2, hN2⟩ := ih s2 (by omega)
        (postProcessIter_hsel allCities minD s s2 hsel hiter)
      refine ⟨N2 + 1, ?_⟩
      rw [postProcessLoop_succ_some allCities minD N2 s s2 hiter]
      exact hN2

/-- **Claim C5 (amended).** For every pool and every repair state whose
selected cities come from the pool: (i) each accepted replacement swap
of `post_process_city_selection` never decreases the minimum pairwise
distance of the selection (the strict-increase reading of the claim
fails, see the counterexample: a second pair can tie at the minimum);
and (ii) the `while improvements_made` loop always terminates — some
finite number of accepted swaps reaches the loop's own stopping
condition. -/
theorem c5_amended_repair (allCities : List LCity) (minDistanceKm : ℝ) (s : PPState)
    (hsel : ∀ r ∈ s.improved, r.2 ∈ allCities.map Prod.snd) :
    (∀ s2, postProcessIter allCities minDistanceKm s = some s2 →
      oLE (minPairwiseDist s.improved) (minPairwiseDist s2.improved)) ∧
    ∃ N, postProcessIter allCities minDistanceKm
        (postProcessLoop allCities minDistanceKm N s) = none :=
  ⟨fun s2 h => postProcessIter_mono allCities minDistanceKm s s2 h,
    postProcessLoop_terminates allCities minDistanceKm (muRepair allCities s) s
      le_rfl hsel⟩

/-- Witness for the amended Claim C5 at a concrete input: a singleton
selection drawn from a singleton pool. -/
theorem c5_amended_repair_witness :
    (∀ s2, postProcessIter [(0, ⟨0, 0, 1⟩)] 500 ⟨[(0, ⟨0, 0, 1⟩)], [0]⟩ = some s2 →
      oLE (minPairwiseDist (PPState.mk [(0, ⟨0, 0, 1⟩)] [0]).improved)
        (minPairwiseDist s2.improved)) ∧
    ∃ N, postProcessIter [(0, ⟨0, 0, 1⟩)] 500
        (postProcessLoop [(0, ⟨0, 0, 1⟩)] 500 N ⟨[(0, ⟨0, 0, 1⟩)], [0]⟩) = none :=
  c5_amended_repair [(0, ⟨0, 0, 1⟩)] 500 ⟨[(0, ⟨0, 0, 1⟩)], [0]⟩ (by
    intro r hr
    rw [List.mem_singleton] at hr
    subst hr
    exact List.mem_map.mpr ⟨(0, ⟨0, 0, 1⟩), List.mem_singleton.mpr rfl, rfl⟩)
